import Mathlib

/-!
Verification development for the tabular-analysis repository
(Fastapi_Streamlit: data.py, support.py, uni.py, worker_stub.py).

The Python source is shallowly embedded: dataframes become lists of typed
columns of cells, pandas/scipy primitives that the source calls as black
boxes (the date-parsing grammar of pd.to_datetime, the chi-square p-value
of scipy.stats.chi2_contingency, the tabular readers pd.read_csv /
pd.read_excel) are parameters of the embedded functions, and exact
rational arithmetic replaces floating point.  A pandas NaN result is
modelled as Option.none.
-/

namespace Aiml

/-- The pandas dtypes that occur in this pipeline.  `objectD`/`categoryD`
are the text-like dtypes, `boolD` the bool dtype that pd.read_csv infers
for True/False columns, `datetime64` the timestamp dtype. -/
inductive Dtype where
  | int64
  | float64
  | boolD
  | objectD
  | categoryD
  | datetime64
  | timedelta64
deriving DecidableEq

/-- One cell of a dataframe.  `null` models NaN/NaT/None missing markers,
`dt t` a datetime64 timestamp (an integer tick count). -/
inductive Cell where
  | null
  | num (q : ℚ)
  | str (s : String)
  | boolv (b : Bool)
  | dt (t : ℤ)
deriving DecidableEq

/-- pd.isna on one cell. -/
def Cell.isNull : Cell → Bool
  | .null => true
  | _ => false

/-- Whether a cell is a datetime64 timestamp. -/
def Cell.isDt : Cell → Bool
  | .dt _ => true
  | _ => false

/-- A named, dtyped column of a dataframe. -/
structure Column where
  name : String
  dtype : Dtype
  cells : List Cell
deriving DecidableEq

/-- A dataframe: its ordered list of columns.  Column access in the source
is by name; pd.read_csv mangles duplicate header names, so theorems that
need by-name access assume the names are distinct. -/
structure DataFrame where
  cols : List Column
deriving DecidableEq

/-- The ordered column names of a dataframe. -/
def DataFrame.names (df : DataFrame) : List String := df.cols.map (·.name)

/-- select_dtypes(include=[np.number]) (data.py line 44): the numeric
dtypes of this pipeline.  np.number matches the integer and floating
dtypes; bool, object, category, datetime64 and timedelta64 do not match. -/
def isNumpyNumber : Dtype → Bool
  | .int64 | .float64 => true
  | _ => false

/-- select_dtypes(include=['object', 'category']) (data.py line 47). -/
def isObjectOrCategory : Dtype → Bool
  | .objectD | .categoryD => true
  | _ => false

/-- The non-null cells of a column (Series.dropna). -/
def Column.nonNull (c : Column) : List Cell := c.cells.filter (fun x => !x.isNull)

/-!  ### Type classifier: data.py separate_data_types (lines 38-71)

The datetime-sampling test is parametrised by `parses : Cell → Bool`, the
oracle for whether `pd.to_datetime(value, errors='raise')` succeeds on a
single sampled value (the pandas date/time grammar is an external
collaborator).  -/

/-- The datetime-promotion test of data.py lines 55-63: take up to 10
non-null sample values of the column; the try-block succeeds (and the
column is recorded as a potential datetime column) exactly when the sample
is non-empty and every sampled value parses. -/
def promotes (parses : Cell → Bool) (c : Column) : Bool :=
  let sample := (c.cells.filter (fun x => !x.isNull)).take 10
  !sample.isEmpty && sample.all parses

/-- One iteration of the promotion loop of data.py lines 54-63, acting on
the pair (current categorical_columns, potential_datetime_cols).  A
promoted column is removed from the categorical list (list.remove deletes
the first occurrence) and appended to the potential list. -/
def promoteStep (parses : Cell → Bool) (acc : List String × List String)
    (c : Column) : List String × List String :=
  if promotes parses c then (acc.1.erase c.name, acc.2 ++ [c.name]) else acc

/-- data.py separate_data_types (lines 38-71): partition the columns into
(numerical, categorical, datetime) name sequences.  The loop iterates over
a copy of the initial categorical list while mutating the original; the
fold below is that loop verbatim. -/
def separate_data_types (parses : Cell → Bool) (df : DataFrame) :
    List String × List String × List String :=
  let numerical_columns := (df.cols.filter (fun c => isNumpyNumber c.dtype)).map (·.name)
  let catCols := df.cols.filter (fun c => isObjectOrCategory c.dtype)
  let datetime_columns := (df.cols.filter (fun c => c.dtype == .datetime64)).map (·.name)
  let p := catCols.foldl (promoteStep parses) (catCols.map (·.name), [])
  (numerical_columns, p.1, datetime_columns ++ p.2)

/-! Characterisation of the promotion loop. -/

theorem promoteFold_snd (parses : Cell → Bool) (cs : List Column)
    (X P : List String) :
    (cs.foldl (promoteStep parses) (X, P)).2
      = P ++ (cs.filter (promotes parses)).map (·.name) := by
  induction cs generalizing X P with
  | nil => simp
  | cons c t ih =>
    simp only [List.foldl_cons, promoteStep, List.filter_cons]
    by_cases h : promotes parses c
    · simp [h, ih]
    · simp [h, ih]

theorem promoteFold_fst (parses : Cell → Bool) (cs : List Column)
    (X P : List String) :
    (cs.foldl (promoteStep parses) (X, P)).1
      = ((cs.filter (promotes parses)).map (·.name)).foldl List.erase X := by
  induction cs generalizing X P with
  | nil => simp
  | cons c t ih =>
    simp only [List.foldl_cons, promoteStep, List.filter_cons]
    by_cases h : promotes parses c
    · simp [h, ih]
    · simp [h, ih]

theorem foldl_erase_eq_filter (ns : List String) (X : List String) (h : X.Nodup) :
    ns.foldl List.erase X = X.filter (fun x => decide (x ∉ ns)) := by
  induction ns generalizing X with
  | nil => simp
  | cons n t ih =>
    simp only [List.foldl_cons]
    rw [ih _ (h.erase n), List.Nodup.erase_eq_filter h n, List.filter_filter]
    apply List.filter_congr
    intro x _
    simp only [List.mem_cons, not_or, Bool.and_comm]
    by_cases h1 : x = n <;> by_cases h2 : x ∈ t <;> simp [h1, h2]

theorem name_inj {df : DataFrame} (h : df.names.Nodup) {c1 c2 : Column}
    (h1 : c1 ∈ df.cols) (h2 : c2 ∈ df.cols) (he : c1.name = c2.name) : c1 = c2 :=
  List.inj_on_of_nodup_map h h1 h2 he

theorem mem_filter_names {df : DataFrame} (h : df.names.Nodup) {c : Column}
    (hc : c ∈ df.cols) (p : Column → Bool) :
    c.name ∈ (df.cols.filter p).map (·.name) ↔ p c = true := by
  constructor
  · rintro hm
    rcases List.mem_map.1 hm with ⟨c', hc', he⟩
    rcases List.mem_filter.1 hc' with ⟨hc'm, hp⟩
    rwa [← name_inj h hc'm hc he]
  · intro hp
    exact List.mem_map.2 ⟨c, List.mem_filter.2 ⟨hc, hp⟩, rfl⟩

theorem count_filter_eq {α : Type} [DecidableEq α] (l : List α) (p : α → Bool) (x : α) :
    (l.filter p).count x = if p x then l.count x else 0 := by
  induction l with
  | nil => simp
  | cons a t ih =>
    by_cases hpa : p a
    · by_cases hax : a = x
      · subst hax
        simp [List.filter_cons, hpa, ih]
      · simp only [List.filter_cons, hpa, if_true, List.count_cons, ih]
        simp [hax]
    · by_cases hax : a = x
      · subst hax
        simp [List.filter_cons, hpa, ih]
      · simp only [List.filter_cons, hpa, if_false, List.count_cons, ih]
        simp [hax, ih]

/-- Splitting a list along four mutually exclusive, jointly exhaustive Bool
predicates is a permutation of the list. -/
theorem filter4_perm {α : Type} [DecidableEq α] (l : List α) (p1 p2 p3 p4 : α → Bool)
    (hone : ∀ a ∈ l, (p1 a).toNat + (p2 a).toNat + (p3 a).toNat + (p4 a).toNat = 1) :
    List.Perm (l.filter p1 ++ l.filter p2 ++ l.filter p3 ++ l.filter p4) l := by
  rw [List.perm_iff_count]
  intro x
  simp only [List.count_append, count_filter_eq]
  by_cases hx : x ∈ l
  · have hs := hone x hx
    cases h1 : p1 x <;> cases h2 : p2 x <;> cases h3 : p3 x <;> cases h4 : p4 x <;>
      simp [h1, h2, h3, h4] at hs ⊢
  · simp [List.count_eq_zero_of_not_mem hx]

theorem filter_not_promoted (parses : Cell → Bool) (cs : List Column)
    (h : (cs.map (·.name)).Nodup) :
    (cs.map (·.name)).filter
        (fun x => decide (x ∉ (cs.filter (promotes parses)).map (·.name)))
      = (cs.filter (fun c => !promotes parses c)).map (·.name) := by
  rw [List.filter_map]
  congr 1
  apply List.filter_congr
  intro c hc
  have hm := @mem_filter_names ⟨cs⟩ h c hc (promotes parses)
  by_cases hp : promotes parses c
  · simp [Function.comp, hp, hm.2 hp]
  · have : c.name ∉ (cs.filter (promotes parses)).map (·.name) := fun hmem => hp (hm.1 hmem)
    simp [Function.comp, hp, this]

theorem catCols_names_nodup {df : DataFrame} (h : df.names.Nodup) :
    ((df.cols.filter (fun c => isObjectOrCategory c.dtype)).map (·.name)).Nodup :=
  List.Nodup.sublist (List.Sublist.map _ (List.filter_sublist df.cols)) h

/-- The categorical output of separate_data_types: the object/category
columns whose promotion test failed, in original order. -/
theorem separate_categorical_eq (parses : Cell → Bool) (df : DataFrame)
    (h : df.names.Nodup) :
    (separate_data_types parses df).2.1
      = ((df.cols.filter (fun c => isObjectOrCategory c.dtype)).filter
          (fun c => !promotes parses c)).map (·.name) := by
  have hn := catCols_names_nodup h
  simp only [separate_data_types]
  rw [promoteFold_fst, foldl_erase_eq_filter _ _ hn, filter_not_promoted _ _ hn]

/-- The datetime output of separate_data_types: the datetime64-dtyped
columns followed by the promoted object/category columns. -/
theorem separate_datetime_eq (parses : Cell → Bool) (df : DataFrame) :
    (separate_data_types parses df).2.2
      = (df.cols.filter (fun c => c.dtype == .datetime64)).map (·.name)
        ++ ((df.cols.filter (fun c => isObjectOrCategory c.dtype)).filter
            (promotes parses)).map (·.name) := by
  simp only [separate_data_types]
  rw [promoteFold_snd]
  simp

/-- Claim C3 (counterexample to the claim as stated): quantified over every
dataset the partition property fails.  A dataframe whose only column has the
bool dtype — which pd.read_csv infers for a True/False column — is matched
neither by select_dtypes(include=[np.number]) nor by
select_dtypes(include=['object','category']) nor by
select_dtypes(include=['datetime64']), so it is assigned to no class and the
union of the three outputs omits it. -/
theorem separate_data_types_misses_bool_cex :
    (separate_data_types (fun _ => false)
        ⟨[⟨"flag", Dtype.boolD, [Cell.boolv true]⟩]⟩).1 = []
    ∧ (separate_data_types (fun _ => false)
        ⟨[⟨"flag", Dtype.boolD, [Cell.boolv true]⟩]⟩).2.1 = []
    ∧ (separate_data_types (fun _ => false)
        ⟨[⟨"flag", Dtype.boolD, [Cell.boolv true]⟩]⟩).2.2 = []
    ∧ "flag" ∈ DataFrame.names ⟨[⟨"flag", Dtype.boolD, [Cell.boolv true]⟩]⟩ := by
  decide

theorem dtype_split_one (d : Dtype) (b : Bool)
    (h : isNumpyNumber d = true ∨ isObjectOrCategory d = true ∨ d = Dtype.datetime64) :
    (isNumpyNumber d).toNat + (!b && isObjectOrCategory d).toNat
      + (d == Dtype.datetime64).toNat + (b && isObjectOrCategory d).toNat = 1 := by
  cases d <;> cases b <;> simp_all [isNumpyNumber, isObjectOrCategory]

/-- Claim C3 (amended): for every dataset with distinct column names whose
every column has one of the dtypes the classifier selects (numeric,
object/category, datetime64), the three output sequences of
separate_data_types are a permutation of the full column-name list and are
duplicate-free — hence pairwise disjoint, without duplicates, and their
union is exactly the set of all columns.  (The amendment restricts the
dtypes: a bool- or timedelta-dtyped column is assigned to no class.) -/
theorem separate_data_types_partition_amended (parses : Cell → Bool) (df : DataFrame)
    (hnodup : df.names.Nodup)
    (hrec : ∀ c ∈ df.cols, isNumpyNumber c.dtype = true
      ∨ isObjectOrCategory c.dtype = true ∨ c.dtype = Dtype.datetime64) :
    List.Perm ((separate_data_types parses df).1 ++ (separate_data_types parses df).2.1
        ++ (separate_data_types parses df).2.2) df.names
    ∧ ((separate_data_types parses df).1 ++ (separate_data_types parses df).2.1
        ++ (separate_data_types parses df).2.2).Nodup := by
  have h4 := filter4_perm df.cols
      (fun c => isNumpyNumber c.dtype)
      (fun c => !promotes parses c && isObjectOrCategory c.dtype)
      (fun c => c.dtype == Dtype.datetime64)
      (fun c => promotes parses c && isObjectOrCategory c.dtype)
      (fun c hc => dtype_split_one c.dtype (promotes parses c) (hrec c hc))
  have hm := h4.map (·.name)
  simp only [List.map_append] at hm
  simp only [← List.filter_filter] at hm
  have hperm : List.Perm ((separate_data_types parses df).1
      ++ (separate_data_types parses df).2.1
      ++ (separate_data_types parses df).2.2) df.names := by
    rw [separate_categorical_eq parses df hnodup, separate_datetime_eq]
    have h1 : (separate_data_types parses df).1
        = (df.cols.filter (fun c => isNumpyNumber c.dtype)).map (·.name) := rfl
    rw [h1]
    simp only [List.append_assoc] at hm ⊢
    exact hm
  exact ⟨hperm, hperm.nodup_iff.mpr hnodup⟩

/-- Claim C3 witness: the amended theorem applied to a concrete dataset with
a numeric, a categorical and a datetime64 column. -/
theorem separate_data_types_partition_amended_witness :
    (DataFrame.names ⟨[⟨"amount", Dtype.int64, [Cell.num 1]⟩,
        ⟨"region", Dtype.objectD, [Cell.str "west"]⟩,
        ⟨"when", Dtype.datetime64, [Cell.dt 5]⟩]⟩).Nodup
    ∧ (List.Perm ((separate_data_types (fun _ => false)
          ⟨[⟨"amount", Dtype.int64, [Cell.num 1]⟩,
            ⟨"region", Dtype.objectD, [Cell.str "west"]⟩,
            ⟨"when", Dtype.datetime64, [Cell.dt 5]⟩]⟩).1
        ++ (separate_data_types (fun _ => false)
          ⟨[⟨"amount", Dtype.int64, [Cell.num 1]⟩,
            ⟨"region", Dtype.objectD, [Cell.str "west"]⟩,
            ⟨"when", Dtype.datetime64, [Cell.dt 5]⟩]⟩).2.1
        ++ (separate_data_types (fun _ => false)
          ⟨[⟨"amount", Dtype.int64, [Cell.num 1]⟩,
            ⟨"region", Dtype.objectD, [Cell.str "west"]⟩,
            ⟨"when", Dtype.datetime64, [Cell.dt 5]⟩]⟩).2.2)
        (DataFrame.names ⟨[⟨"amount", Dtype.int64, [Cell.num 1]⟩,
          ⟨"region", Dtype.objectD, [Cell.str "west"]⟩,
          ⟨"when", Dtype.datetime64, [Cell.dt 5]⟩]⟩)
      ∧ ((separate_data_types (fun _ => false)
          ⟨[⟨"amount", Dtype.int64, [Cell.num 1]⟩,
            ⟨"region", Dtype.objectD, [Cell.str "west"]⟩,
            ⟨"when", Dtype.datetime64, [Cell.dt 5]⟩]⟩).1
        ++ (separate_data_types (fun _ => false)
          ⟨[⟨"amount", Dtype.int64, [Cell.num 1]⟩,
            ⟨"region", Dtype.objectD, [Cell.str "west"]⟩,
            ⟨"when", Dtype.datetime64, [Cell.dt 5]⟩]⟩).2.1
        ++ (separate_data_types (fun _ => false)
          ⟨[⟨"amount", Dtype.int64, [Cell.num 1]⟩,
            ⟨"region", Dtype.objectD, [Cell.str "west"]⟩,
            ⟨"when", Dtype.datetime64, [Cell.dt 5]⟩]⟩).2.2).Nodup) :=
  ⟨by decide, separate_data_types_partition_amended (fun _ => false) _
    (by decide) (by decide)⟩

/-- Claim C5: in separate_data_types, a text/categorical-like column (dtype
object or category) of a dataset with distinct column names ends up in the
Datetime output if and only if its sample — the first up-to-10 non-null
cells — is non-empty and every sampled value parses under the date/time
grammar; otherwise (one unparseable sample, or zero non-null samples) it
stays in the Categorical output. -/
theorem datetime_promotion_iff (parses : Cell → Bool) (df : DataFrame)
    (hnodup : df.names.Nodup) (c : Column) (hc : c ∈ df.cols)
    (hdtype : isObjectOrCategory c.dtype = true) :
    (c.name ∈ (separate_data_types parses df).2.2
      ↔ ((c.cells.filter (fun x => !x.isNull)).take 10 ≠ []
          ∧ ∀ x ∈ (c.cells.filter (fun x => !x.isNull)).take 10, parses x = true))
    ∧ (c.name ∈ (separate_data_types parses df).2.1
      ↔ ¬((c.cells.filter (fun x => !x.isNull)).take 10 ≠ []
          ∧ ∀ x ∈ (c.cells.filter (fun x => !x.isNull)).take 10, parses x = true)) := by
  have hpiff : promotes parses c = true
      ↔ ((c.cells.filter (fun x => !x.isNull)).take 10 ≠ []
          ∧ ∀ x ∈ (c.cells.filter (fun x => !x.isNull)).take 10, parses x = true) := by
    simp [promotes, List.isEmpty_iff, List.all_eq_true]
  have hnotdt : (c.dtype == Dtype.datetime64) = false := by
    revert hdtype
    cases c.dtype <;> simp [isObjectOrCategory]
  constructor
  · rw [separate_datetime_eq, List.mem_append, List.filter_filter,
      mem_filter_names hnodup hc, mem_filter_names hnodup hc]
    rw [hnotdt]
    simp only [Bool.false_eq_true, false_or, Bool.and_eq_true]
    rw [← hpiff]
    constructor
    · rintro ⟨hp, _⟩
      exact hp
    · intro hp
      exact ⟨hp, hdtype⟩
  · rw [separate_categorical_eq parses df hnodup, List.filter_filter,
      mem_filter_names hnodup hc]
    simp only [Bool.and_eq_true, Bool.not_eq_true']
    rw [← hpiff]
    constructor
    · rintro ⟨hp, _⟩
      simp [hp]
    · intro hp
      simp only [Bool.not_eq_true] at hp
      exact ⟨by simpa using hp, hdtype⟩

/-- Claim C5 witness: the promotion rule evaluated on a concrete dataset
with one object column whose two non-null samples all parse, under a parse
oracle accepting exactly ISO-looking strings. -/
theorem datetime_promotion_iff_witness :
    (DataFrame.names ⟨[⟨"signup", Dtype.objectD,
        [Cell.str "2020-01-01", Cell.null, Cell.str "2021-02-03"]⟩]⟩).Nodup
    ∧ (⟨"signup", Dtype.objectD,
        [Cell.str "2020-01-01", Cell.null, Cell.str "2021-02-03"]⟩ : Column)
        ∈ (⟨[⟨"signup", Dtype.objectD,
          [Cell.str "2020-01-01", Cell.null, Cell.str "2021-02-03"]⟩]⟩ : DataFrame).cols
    ∧ ((⟨"signup", Dtype.objectD,
          [Cell.str "2020-01-01", Cell.null, Cell.str "2021-02-03"]⟩ : Column).name
        ∈ (separate_data_types (fun x => !x.isNull)
        ⟨[⟨"signup", Dtype.objectD,
          [Cell.str "2020-01-01", Cell.null, Cell.str "2021-02-03"]⟩]⟩).2.2
      ↔ (((⟨"signup", Dtype.objectD,
          [Cell.str "2020-01-01", Cell.null, Cell.str "2021-02-03"]⟩ : Column).cells.filter
            (fun x => !x.isNull)).take 10 ≠ []
        ∧ ∀ x ∈ ((⟨"signup", Dtype.objectD,
          [Cell.str "2020-01-01", Cell.null, Cell.str "2021-02-03"]⟩ : Column).cells.filter
            (fun x => !x.isNull)).take 10, (!x.isNull) = true)) :=
  ⟨by decide, by decide,
    (datetime_promotion_iff (fun x => !x.isNull)
      ⟨[⟨"signup", Dtype.objectD,
        [Cell.str "2020-01-01", Cell.null, Cell.str "2021-02-03"]⟩]⟩
      (by decide)
      ⟨"signup", Dtype.objectD,
        [Cell.str "2020-01-01", Cell.null, Cell.str "2021-02-03"]⟩
      (by decide) (by decide)).1⟩

/-!  ### Feature significance scorer: support.py dataset_feature_analysis

Pearson correlations involve square roots, which exact rational arithmetic
cannot represent; since the source only ever compares and maximises the
ABSOLUTE correlations |r| ∈ [0,1], the embedding carries the squared
correlation r², the image of |r| under the strictly monotone map
x ↦ x² on [0,∞).  Maxima, argument-of-maximum identity and (in)equality of
raw scores are therefore preserved exactly.  A pandas NaN entry of the
correlation matrix (a constant column, or fewer than two paired
observations) is Option.none, and Series.max skips none entries exactly as
pandas max skips NaN. -/

/-- Minimum of a list, with a default for the (never reached) empty case;
Python min() over a non-empty collection. -/
def listMinD {α : Type} [LinearOrder α] (d : α) : List α → α
  | [] => d
  | x :: t => t.foldl min x

/-- Maximum of a list, with a default for the (never reached) empty case;
Python max() over a non-empty collection. -/
def listMaxD {α : Type} [LinearOrder α] (d : α) : List α → α
  | [] => d
  | x :: t => t.foldl max x

/-- Arithmetic mean of a list of rationals (pandas Series.mean on the
non-null values; 0/0 never arises at use sites, which guard emptiness). -/
def lmean (l : List ℚ) : ℚ := l.sum / l.length

/-- The numeric values of a column as pandas sees them: numbers are kept,
nulls and anything else are NaN (none). -/
def Column.numVals (c : Column) : List (Option ℚ) :=
  c.cells.map (fun x => match x with
    | .num q => some q
    | _ => none)

/-- Pairwise-complete observations of two numeric series, as pandas corr
uses: positions where both are non-null. -/
def pairedObs (xs ys : List (Option ℚ)) : List (ℚ × ℚ) :=
  (xs.zip ys).filterMap (fun z => match z with
    | (some a, some b) => some (a, b)
    | _ => none)

/-- Deviations from the per-component means of a paired sample. -/
def devPairs (p : List (ℚ × ℚ)) : List (ℚ × ℚ) :=
  p.map (fun z => (z.1 - lmean (p.map (·.1)), z.2 - lmean (p.map (·.2))))

/-- Sum of products of deviations (numerator of the covariance; the 1/(n-1)
factors cancel in the correlation ratio and are omitted throughout). -/
def covSum (p : List (ℚ × ℚ)) : ℚ := ((devPairs p).map (fun z => z.1 * z.2)).sum

/-- Sum of squared deviations of the first components. -/
def varSumFst (p : List (ℚ × ℚ)) : ℚ := ((devPairs p).map (fun z => z.1 ^ 2)).sum

/-- Sum of squared deviations of the second components. -/
def varSumSnd (p : List (ℚ × ℚ)) : ℚ := ((devPairs p).map (fun z => z.2 ^ 2)).sum

/-- Squared Pearson correlation of two numeric series over their
pairwise-complete observations: cov²/(var·var).  none models the NaN that
pandas corr produces when either variance vanishes (constant column, or
fewer than two paired observations).  r² represents |r| faithfully for
every comparison the source performs. -/
def corrSq (xs ys : List (Option ℚ)) : Option ℚ :=
  if varSumFst (pairedObs xs ys) = 0 ∨ varSumSnd (pairedObs xs ys) = 0 then none
  else some (covSum (pairedObs xs ys) ^ 2
    / (varSumFst (pairedObs xs ys) * varSumSnd (pairedObs xs ys)))

/-- pandas Series.max: maximum of the non-NaN entries, NaN (none) when all
entries are NaN. -/
def optMax : List (Option ℚ) → Option ℚ
  | [] => none
  | none :: t => optMax t
  | some a :: t =>
    match optMax t with
    | none => some a
    | some b => some (max a b)

/-- support.py line 13: select_dtypes(include=['int64','float64']). -/
def numericalColsOf (df : DataFrame) : List Column :=
  df.cols.filter (fun c => isNumpyNumber c.dtype)

/-- support.py lines 22-23: num_scores = df[numerical_cols].corr("pearson")
.abs().max().to_dict() — for every numeric column, the column-wise maximum
of the absolute correlation matrix.  DataFrame.max runs over ALL rows of
the matrix, the diagonal self-correlation included.  (Squared
representation; pandas max skips NaN entries.) -/
def num_scores (df : DataFrame) : List (String × Option ℚ) :=
  let ncols := numericalColsOf df
  ncols.map (fun c =>
    (c.name, optMax (ncols.map (fun c2 => corrSq c2.numVals c.numVals))))

/-- Modelled from the spec: the numeric raw score claimed in C1 — the
maximum absolute correlation of a column with any OTHER numeric column,
the self-correlation excluded.  Written from the spec's words for
comparison with num_scores, which is the code's computation. -/
def num_scores_spec (df : DataFrame) : List (String × Option ℚ) :=
  let ncols := numericalColsOf df
  ncols.map (fun c =>
    (c.name, optMax ((ncols.filter (fun c2 => c2.name ≠ c.name)).map
      (fun c2 => corrSq c2.numVals c.numVals))))

/-- support.py line 21: the numeric branch runs only when there are at
least two numeric columns; otherwise no numeric scores are produced. -/
def numeric_branch (df : DataFrame) : List (String × Option ℚ) :=
  if (numericalColsOf df).length > 1 then num_scores df else []

/-! Facts about optMax. -/

theorem optMax_mem {l : List (Option ℚ)} {m : ℚ} (h : optMax l = some m) :
    some m ∈ l := by
  induction l generalizing m with
  | nil => simp [optMax] at h
  | cons x t ih =>
    match x with
    | none =>
      simp only [optMax] at h
      exact List.mem_cons_of_mem _ (ih h)
    | some a =>
      simp only [optMax] at h
      cases ht : optMax t with
      | none =>
        rw [ht] at h
        simp at h
        simp [h]
      | some b =>
        rw [ht] at h
        simp at h
        rcases max_choice a b with hm | hm
        · rw [hm] at h
          simp [h]
        · rw [hm] at h
          exact List.mem_cons_of_mem _ (h ▸ ih ht)

theorem optMax_ne_none {l : List (Option ℚ)} {r : ℚ} (hr : some r ∈ l) :
    optMax l ≠ none := by
  induction l with
  | nil => simp at hr
  | cons x t ih =>
    match x with
    | none =>
      simp only [optMax]
      rcases List.mem_cons.1 hr with h1 | h2
      · exact absurd h1 (by simp)
      · exact ih h2
    | some a =>
      simp only [optMax]
      cases optMax t <;> simp

theorem optMax_ub {l : List (Option ℚ)} {m r : ℚ} (h : optMax l = some m)
    (hr : some r ∈ l) : r ≤ m := by
  induction l generalizing m with
  | nil => simp at hr
  | cons x t ih =>
    match x with
    | none =>
      simp only [optMax] at h
      rcases List.mem_cons.1 hr with hr1 | hr2
      · exact absurd hr1 (by simp)
      · exact ih h hr2
    | some a =>
      simp only [optMax] at h
      cases ht : optMax t with
      | none =>
        rw [ht] at h
        simp only [Option.some.injEq] at h
        rcases List.mem_cons.1 hr with hr1 | hr2
        · have hra : r = a := by simpa using hr1
          rw [hra, h]
        · exact absurd ht (optMax_ne_none hr2)
      | some b =>
        rw [ht] at h
        simp only [Option.some.injEq] at h
        rcases List.mem_cons.1 hr with hr1 | hr2
        · have hra : r = a := by simpa using hr1
          subst hra
          rw [← h]
          exact le_max_left _ _
        · have := ih ht hr2
          rw [← h]
          exact le_trans this (le_max_right _ _)

theorem optMax_some_of_mem {l : List (Option ℚ)} {r : ℚ} (hr : some r ∈ l) :
    ∃ m, optMax l = some m := by
  cases ho : optMax l with
  | none => exact absurd ho (optMax_ne_none hr)
  | some m => exact ⟨m, rfl⟩

theorem optMax_spec {l : List (Option ℚ)} {a : ℚ} (ha : some a ∈ l)
    (hub : ∀ r : ℚ, some r ∈ l → r ≤ a) : optMax l = some a := by
  rcases optMax_some_of_mem ha with ⟨m, hm⟩
  have h1 : a ≤ m := optMax_ub hm ha
  have h2 : m ≤ a := hub m (optMax_mem hm)
  rw [hm, le_antisymm h2 h1]

/-! Cauchy-Schwarz for lists of pairs, and the two key correlation facts:
every squared correlation is at most 1, and the self-correlation of a
non-constant column is exactly 1. -/

theorem list_cauchy_schwarz (l : List (ℚ × ℚ)) :
    ((l.map (fun z => z.1 * z.2)).sum) ^ 2
      ≤ (l.map (fun z => z.1 ^ 2)).sum * (l.map (fun z => z.2 ^ 2)).sum := by
  have e1 : (l.map (fun z => z.1 * z.2)).sum
      = ∑ i : Fin l.length, (l.get i).1 * (l.get i).2 := by
    rw [← List.ofFn_getElem_eq_map l (fun z => z.1 * z.2), List.sum_ofFn]
    rfl
  have e2 : (l.map (fun z => z.1 ^ 2)).sum
      = ∑ i : Fin l.length, (l.get i).1 ^ 2 := by
    rw [← List.ofFn_getElem_eq_map l (fun z => z.1 ^ 2), List.sum_ofFn]
    rfl
  have e3 : (l.map (fun z => z.2 ^ 2)).sum
      = ∑ i : Fin l.length, (l.get i).2 ^ 2 := by
    rw [← List.ofFn_getElem_eq_map l (fun z => z.2 ^ 2), List.sum_ofFn]
    rfl
  rw [e1, e2, e3]
  exact Finset.sum_mul_sq_le_sq_mul_sq Finset.univ (fun i => (l.get i).1)
    (fun i => (l.get i).2)

theorem varSumFst_nonneg (p : List (ℚ × ℚ)) : 0 ≤ varSumFst p := by
  apply List.sum_nonneg
  intro x hx
  rcases List.mem_map.1 hx with ⟨z, _, rfl⟩
  exact sq_nonneg _

theorem varSumSnd_nonneg (p : List (ℚ × ℚ)) : 0 ≤ varSumSnd p := by
  apply List.sum_nonneg
  intro x hx
  rcases List.mem_map.1 hx with ⟨z, _, rfl⟩
  exact sq_nonneg _

/-- Every defined entry of the (squared) absolute correlation matrix is at
most 1. -/
theorem corrSq_le_one {xs ys : List (Option ℚ)} {r : ℚ}
    (h : corrSq xs ys = some r) : r ≤ 1 := by
  unfold corrSq at h
  by_cases hv : varSumFst (pairedObs xs ys) = 0 ∨ varSumSnd (pairedObs xs ys) = 0
  · simp [hv] at h
  · simp only [hv, if_false] at h
    push_neg at hv
    have hx : 0 < varSumFst (pairedObs xs ys) :=
      lt_of_le_of_ne (varSumFst_nonneg _) (Ne.symm hv.1)
    have hy : 0 < varSumSnd (pairedObs xs ys) :=
      lt_of_le_of_ne (varSumSnd_nonneg _) (Ne.symm hv.2)
    have hr : covSum (pairedObs xs ys) ^ 2
        / (varSumFst (pairedObs xs ys) * varSumSnd (pairedObs xs ys)) = r := by
      simpa using h
    rw [← hr, div_le_one (mul_pos hx hy)]
    unfold covSum varSumFst varSumSnd
    exact list_cauchy_schwarz (devPairs (pairedObs xs ys))

theorem pairedObs_self (xs : List (Option ℚ)) :
    pairedObs xs xs = (xs.filterMap id).map (fun a => (a, a)) := by
  induction xs with
  | nil => rfl
  | cons x t ih =>
    cases x with
    | none => simpa [pairedObs] using (by simpa [pairedObs] using ih)
    | some a => simp [pairedObs] at ih ⊢; exact ih

/-- The self-correlation of a column with non-vanishing variance is exactly
1 (the diagonal of the pandas correlation matrix). -/
theorem corrSq_self {xs : List (Option ℚ)}
    (hv : varSumFst (pairedObs xs xs) ≠ 0) : corrSq xs xs = some 1 := by
  have hdiag : ∀ z ∈ pairedObs xs xs, z.1 = z.2 := by
    rw [pairedObs_self]
    intro z hz
    rcases List.mem_map.1 hz with ⟨a, _, rfl⟩
    rfl
  have hmap : (pairedObs xs xs).map (·.1) = (pairedObs xs xs).map (·.2) :=
    List.map_congr_left hdiag
  have hdev : ∀ z ∈ devPairs (pairedObs xs xs), z.1 = z.2 := by
    unfold devPairs
    intro z hz
    rcases List.mem_map.1 hz with ⟨w, hw, rfl⟩
    simp only
    rw [hmap, hdiag w hw]
  have hcov : covSum (pairedObs xs xs) = varSumFst (pairedObs xs xs) := by
    unfold covSum varSumFst
    congr 1
    apply List.map_congr_left
    intro z hz
    rw [← hdev z hz, sq]
  have hvs : varSumSnd (pairedObs xs xs) = varSumFst (pairedObs xs xs) := by
    unfold varSumSnd varSumFst
    congr 1
    apply List.map_congr_left
    intro z hz
    rw [← hdev z hz]
  unfold corrSq
  rw [hvs, hcov, if_neg (by push_neg; exact ⟨hv, hv⟩)]
  congr 1
  rw [sq]
  exact div_self (mul_ne_zero hv hv)

theorem lookup_map_name {β : Type} (f : Column → β) {cs : List Column}
    (h : (cs.map (·.name)).Nodup) {c : Column} (hc : c ∈ cs) :
    (cs.map (fun x => (x.name, f x))).lookup c.name = some (f c) := by
  induction cs with
  | nil => simp at hc
  | cons d t ih =>
    rcases List.mem_cons.1 hc with h1 | h2
    · subst h1
      simp [List.lookup]
    · have hd : d.name ∉ t.map (·.name) := (List.nodup_cons.1 h).1
      have hne : (c.name == d.name) = false := by
        by_cases he : c.name = d.name
        · exact absurd (he ▸ List.mem_map.2 ⟨c, h2, rfl⟩) hd
        · simpa using he
      simp only [List.map_cons, List.lookup, hne]
      exact ih (List.nodup_cons.1 h).2 h2

/-- Claim C1 (counterexample): for the dataset with numeric columns
a = [1,2,3] and b = [1,3,2] the absolute correlation between a and b is 1/2
(squared: 1/4), yet the code's raw score for "a" is 1 (squared: 1), because
DataFrame.max on the correlation matrix includes the diagonal
self-correlation — the claim's "self excluded" raw score would be 1/4. -/
theorem num_scores_includes_self_cex :
    (num_scores ⟨[⟨"a", Dtype.int64, [Cell.num 1, Cell.num 2, Cell.num 3]⟩,
        ⟨"b", Dtype.int64, [Cell.num 1, Cell.num 3, Cell.num 2]⟩]⟩).lookup "a"
      = some (some 1)
    ∧ (num_scores_spec ⟨[⟨"a", Dtype.int64, [Cell.num 1, Cell.num 2, Cell.num 3]⟩,
        ⟨"b", Dtype.int64, [Cell.num 1, Cell.num 3, Cell.num 2]⟩]⟩).lookup "a"
      = some (some (1/4))
    ∧ some (some (1 : ℚ)) ≠ some (some (1/4 : ℚ)) := by
  have hba : (decide (("b" : String) = "a")) = false := by decide
  have hab : (decide (("a" : String) = "b")) = false := by decide
  refine ⟨?_, ?_, by norm_num⟩ <;>
    norm_num [num_scores, num_scores_spec, numericalColsOf, isNumpyNumber,
      corrSq, pairedObs, devPairs, covSum, varSumFst, varSumSnd, lmean,
      optMax, Column.numVals, List.zip, List.zipWith, List.filterMap,
      List.filter, List.lookup, ne_eq, decide_not, hba, hab]

/-- Claim C1 (amended): the numeric raw score of support.py is the maximum
absolute Pearson correlation over ALL numeric columns INCLUDING the column
itself (pandas DataFrame.max runs over the whole matrix column, diagonal
included), so every numeric column whose paired observations are not all
equal receives raw score 1 — squared representation some 1; and with fewer
than 2 numeric columns the numeric branch produces no scores at all. -/
theorem num_scores_amended (df : DataFrame) (hnodup : df.names.Nodup)
    (c : Column) (hc : c ∈ numericalColsOf df)
    (hvar : varSumFst (pairedObs c.numVals c.numVals) ≠ 0) :
    (num_scores df).lookup c.name = some (some 1)
    ∧ ∀ df' : DataFrame, (numericalColsOf df').length ≤ 1 →
        numeric_branch df' = [] := by
  constructor
  · have hnn : ((numericalColsOf df).map (·.name)).Nodup :=
      List.Nodup.sublist (List.Sublist.map _ (List.filter_sublist df.cols)) hnodup
    unfold num_scores
    rw [lookup_map_name _ hnn hc]
    congr 1
    apply optMax_spec
    · exact List.mem_map.2 ⟨c, hc, corrSq_self hvar⟩
    · intro r hr
      rcases List.mem_map.1 hr with ⟨c2, _, hce⟩
      exact corrSq_le_one hce
  · intro df' h
    unfold numeric_branch
    rw [if_neg (by omega)]

/-- Claim C1 witness: the amended theorem applied to the two-column
dataset of the counterexample. -/
theorem num_scores_amended_witness :
    (DataFrame.names ⟨[⟨"a", Dtype.int64, [Cell.num 1, Cell.num 2, Cell.num 3]⟩,
        ⟨"b", Dtype.int64, [Cell.num 1, Cell.num 3, Cell.num 2]⟩]⟩).Nodup
    ∧ varSumFst (pairedObs
        (Column.numVals ⟨"a", Dtype.int64, [Cell.num 1, Cell.num 2, Cell.num 3]⟩)
        (Column.numVals ⟨"a", Dtype.int64, [Cell.num 1, Cell.num 2, Cell.num 3]⟩)) ≠ 0
    ∧ (num_scores ⟨[⟨"a", Dtype.int64, [Cell.num 1, Cell.num 2, Cell.num 3]⟩,
        ⟨"b", Dtype.int64, [Cell.num 1, Cell.num 3, Cell.num 2]⟩]⟩).lookup
        (Column.name ⟨"a", Dtype.int64, [Cell.num 1, Cell.num 2, Cell.num 3]⟩)
      = some (some 1) :=
  have hv : varSumFst (pairedObs
      (Column.numVals ⟨"a", Dtype.int64, [Cell.num 1, Cell.num 2, Cell.num 3]⟩)
      (Column.numVals ⟨"a", Dtype.int64, [Cell.num 1, Cell.num 2, Cell.num 3]⟩)) ≠ 0 := by
    norm_num [pairedObs, devPairs, covSum, varSumFst, varSumSnd, lmean,
      Column.numVals, List.zip, List.zipWith, List.filterMap]
  ⟨by decide, hv,
    (num_scores_amended ⟨[⟨"a", Dtype.int64, [Cell.num 1, Cell.num 2, Cell.num 3]⟩,
        ⟨"b", Dtype.int64, [Cell.num 1, Cell.num 3, Cell.num 2]⟩]⟩
      (by decide)
      ⟨"a", Dtype.int64, [Cell.num 1, Cell.num 2, Cell.num 3]⟩
      (by decide) hv).1⟩

/-!  ### Min-max normalisation (support.py lines 25-27, 42-44, 55-57)

All three branches normalise a non-empty score collection with
(score - min) / (max - min) when max > min, and 0.0 for every member
otherwise. -/

/-- Min-max normalisation of a list of raw scores, exactly the per-element
expression of support.py: (s - min)/(max - min) if max > min else 0.0. -/
def minmaxNormalize (scores : List ℚ) : List ℚ :=
  scores.map (fun s =>
    if listMinD 0 scores < listMaxD 0 scores then
      (s - listMinD 0 scores) / (listMaxD 0 scores - listMinD 0 scores)
    else 0)

theorem foldl_max_le {α : Type} [LinearOrder α] (t : List α) (x b : α)
    (hx : x ≤ b) (ht : ∀ a ∈ t, a ≤ b) : t.foldl max x ≤ b := by
  induction t generalizing x with
  | nil => simpa using hx
  | cons a s ih =>
    simp only [List.foldl_cons]
    exact ih _ (max_le hx (ht a (List.mem_cons_self _ _)))
      (fun y hy => ht y (List.mem_cons_of_mem _ hy))

theorem le_foldl_max {α : Type} [LinearOrder α] (t : List α) (x : α) :
    x ≤ t.foldl max x := by
  induction t generalizing x with
  | nil => simp
  | cons a s ih =>
    simp only [List.foldl_cons]
    exact le_trans (le_max_left x a) (ih (max x a))

theorem mem_le_foldl_max {α : Type} [LinearOrder α] {t : List α} {a : α}
    (ha : a ∈ t) (x : α) : a ≤ t.foldl max x := by
  induction t generalizing x with
  | nil => simp at ha
  | cons b s ih =>
    simp only [List.foldl_cons]
    rcases List.mem_cons.1 ha with h1 | h2
    · subst h1
      exact le_trans (le_max_right x a) (le_foldl_max s _)
    · exact ih h2 _

theorem foldl_max_mem {α : Type} [LinearOrder α] (t : List α) (x : α) :
    t.foldl max x = x ∨ t.foldl max x ∈ t := by
  induction t generalizing x with
  | nil => simp
  | cons a s ih =>
    simp only [List.foldl_cons]
    rcases ih (max x a) with h | h
    · rcases max_choice x a with hm | hm
      · left
        rw [h, hm]
      · right
        rw [h, hm]
        exact List.mem_cons_self _ _
    · right
      exact List.mem_cons_of_mem _ h

theorem listMaxD_mem {l : List ℚ} (h : l ≠ []) : listMaxD 0 l ∈ l := by
  match l with
  | [] => exact absurd rfl h
  | x :: t =>
    show t.foldl max x ∈ x :: t
    rcases foldl_max_mem t x with h1 | h1
    · rw [h1]
      exact List.mem_cons_self _ _
    · exact List.mem_cons_of_mem _ h1

theorem le_listMaxD {l : List ℚ} {a : ℚ} (ha : a ∈ l) : a ≤ listMaxD 0 l := by
  match l with
  | [] => simp at ha
  | x :: t =>
    show a ≤ t.foldl max x
    rcases List.mem_cons.1 ha with h1 | h2
    · subst h1
      exact le_foldl_max t a
    · exact mem_le_foldl_max h2 x

theorem foldl_min_le {α : Type} [LinearOrder α] (t : List α) (x : α) :
    t.foldl min x ≤ x := by
  induction t generalizing x with
  | nil => simp
  | cons a s ih =>
    simp only [List.foldl_cons]
    exact le_trans (ih (min x a)) (min_le_left x a)

theorem foldl_min_le_mem {α : Type} [LinearOrder α] {t : List α} {a : α}
    (ha : a ∈ t) (x : α) : t.foldl min x ≤ a := by
  induction t generalizing x with
  | nil => simp at ha
  | cons b s ih =>
    simp only [List.foldl_cons]
    rcases List.mem_cons.1 ha with h1 | h2
    · subst h1
      exact le_trans (foldl_min_le s _) (min_le_right x a)
    · exact ih h2 _

theorem foldl_min_mem {α : Type} [LinearOrder α] (t : List α) (x : α) :
    t.foldl min x = x ∨ t.foldl min x ∈ t := by
  induction t generalizing x with
  | nil => simp
  | cons a s ih =>
    simp only [List.foldl_cons]
    rcases ih (min x a) with h | h
    · rcases min_choice x a with hm | hm
      · left
        rw [h, hm]
      · right
        rw [h, hm]
        exact List.mem_cons_self _ _
    · right
      exact List.mem_cons_of_mem _ h

theorem listMinD_mem {l : List ℚ} (h : l ≠ []) : listMinD 0 l ∈ l := by
  match l with
  | [] => exact absurd rfl h
  | x :: t =>
    show t.foldl min x ∈ x :: t
    rcases foldl_min_mem t x with h1 | h1
    · rw [h1]
      exact List.mem_cons_self _ _
    · exact List.mem_cons_of_mem _ h1

theorem listMinD_le {l : List ℚ} {a : ℚ} (ha : a ∈ l) : listMinD 0 l ≤ a := by
  match l with
  | [] => simp at ha
  | x :: t =>
    show t.foldl min x ≤ a
    rcases List.mem_cons.1 ha with h1 | h2
    · subst h1
      exact foldl_min_le t a
    · exact foldl_min_le_mem h2 x

/-- The NaN-free core of the min-max normalisation property: for a
collection of DEFINED raw scores with at least 2 members, every
normalised score lies in [0,1]; unless all raw scores are equal at least
one member normalises to 1.0 and one to 0.0; when all are equal every
member normalises to 0.0.  (The program's numeric and datetime raw
scores can also be NaN; the claim-level statements over possibly-NaN
collections build on this lemma below.) -/
theorem minmax_normalize_bounds (l : List ℚ) (h2 : 2 ≤ l.length) :
    (∀ x ∈ minmaxNormalize l, 0 ≤ x ∧ x ≤ 1)
    ∧ ((∃ a ∈ l, ∃ b ∈ l, a ≠ b) →
        (1 : ℚ) ∈ minmaxNormalize l ∧ (0 : ℚ) ∈ minmaxNormalize l)
    ∧ ((∀ a ∈ l, ∀ b ∈ l, a = b) → ∀ x ∈ minmaxNormalize l, x = 0) := by
  have hne : l ≠ [] := by
    intro h
    rw [h] at h2
    simp at h2
  by_cases hlt : listMinD 0 l < listMaxD 0 l
  · have hd : (0 : ℚ) < listMaxD 0 l - listMinD 0 l := by linarith
    refine ⟨?_, fun _ => ⟨?_, ?_⟩, ?_⟩
    · intro x hx
      rcases List.mem_map.1 hx with ⟨s, hs, rfl⟩
      rw [if_pos hlt]
      constructor
      · exact div_nonneg (by linarith [listMinD_le hs]) hd.le
      · rw [div_le_one hd]
        linarith [le_listMaxD hs]
    · refine List.mem_map.2 ⟨listMaxD 0 l, listMaxD_mem hne, ?_⟩
      rw [if_pos hlt]
      exact div_self hd.ne'
    · refine List.mem_map.2 ⟨listMinD 0 l, listMinD_mem hne, ?_⟩
      rw [if_pos hlt]
      simp
    · intro hall x hx
      have := hall (listMinD 0 l) (listMinD_mem hne) (listMaxD 0 l) (listMaxD_mem hne)
      exact absurd this (ne_of_lt hlt)
  · refine ⟨?_, ?_, ?_⟩
    · intro x hx
      rcases List.mem_map.1 hx with ⟨s, hs, rfl⟩
      rw [if_neg hlt]
      norm_num
    · rintro ⟨a, ha, b, hb, hab⟩
      have h1 : listMinD 0 l ≤ a := listMinD_le ha
      have h2' : a ≤ listMaxD 0 l := le_listMaxD ha
      have h3 : listMinD 0 l ≤ b := listMinD_le hb
      have h4 : b ≤ listMaxD 0 l := le_listMaxD hb
      exact absurd (by linarith : a = b) hab
    · intro _ x hx
      rcases List.mem_map.1 hx with ⟨s, hs, rfl⟩
      rw [if_neg hlt]

/-- The NaN-free core lemma evaluated at the raw scores [1, 3]. -/
theorem minmax_normalize_bounds_witness :
    2 ≤ ([1, 3] : List ℚ).length
    ∧ ((∀ x ∈ minmaxNormalize [1, 3], 0 ≤ x ∧ x ≤ 1)
      ∧ ((∃ a ∈ ([1, 3] : List ℚ), ∃ b ∈ ([1, 3] : List ℚ), a ≠ b) →
          (1 : ℚ) ∈ minmaxNormalize [1, 3] ∧ (0 : ℚ) ∈ minmaxNormalize [1, 3])
      ∧ ((∀ a ∈ ([1, 3] : List ℚ), ∀ b ∈ ([1, 3] : List ℚ), a = b) →
          ∀ x ∈ minmaxNormalize [1, 3], x = 0)) :=
  ⟨by norm_num, minmax_normalize_bounds [1, 3] (by norm_num)⟩

/-!  ### Min-max normalisation over possibly-NaN scores

The raw score collections the numeric and datetime branches normalise can
contain NaN: a constant numeric column's correlation-matrix column is all
NaN, so its Series.max raw score is NaN; a datetime column with fewer
than two valid timestamps has var() = NaN.  Python's builtin min and max
compare with < and >, which are False whenever a NaN is involved, and the
per-score arithmetic propagates NaN.  The following model normalisation
as the source runs it on such float collections (none = NaN). -/

/-- Python float comparison a < b: False whenever either side is NaN. -/
def pyLt : Option ℚ → Option ℚ → Bool
  | some a, some b => decide (a < b)
  | _, _ => false

/-- Python float comparison a > b: False whenever either side is NaN. -/
def pyGt : Option ℚ → Option ℚ → Bool
  | some a, some b => decide (a > b)
  | _, _ => false

/-- Python's builtin min over a float collection that may contain NaN:
keep the current lowest and replace it when item < lowest — so a NaN item
never replaces the current value, and a NaN in front is never replaced. -/
def pyMinO : List (Option ℚ) → Option ℚ
  | [] => none
  | x :: t => t.foldl (fun cur y => if pyLt y cur then y else cur) x

/-- Python's builtin max, dually: replace when item > largest. -/
def pyMaxO : List (Option ℚ) → Option ℚ
  | [] => none
  | x :: t => t.foldl (fun cur y => if pyGt y cur then y else cur) x

/-- NaN-propagating (score - min) / (max - min). -/
def pySubDiv (s mn mx : Option ℚ) : Option ℚ :=
  match s, mn, mx with
  | some q, some a, some b => some ((q - a) / (b - a))
  | _, _, _ => none

/-- support.py lines 25-27 and 55-57 run on a raw-score collection that
may contain NaN entries: when max_s > min_s — a comparison that is False
whenever either extremum is NaN — each score is normalised by
(s - min)/(max - min) with NaN propagating; otherwise every member,
NaN-scored ones included, gets 0.0. -/
def minmaxNormalizeO (scores : List (Option ℚ)) : List (Option ℚ) :=
  scores.map (fun s =>
    if pyGt (pyMaxO scores) (pyMinO scores) then
      pySubDiv s (pyMinO scores) (pyMaxO scores)
    else some 0)

/-- On a NaN-free collection, Python's min agrees with the rational
minimum. -/
theorem pyMinO_map_some (l : List ℚ) (h : l ≠ []) :
    pyMinO (l.map some) = some (listMinD 0 l) := by
  match l with
  | [] => exact absurd rfl h
  | x :: t =>
    show (t.map some).foldl (fun cur y => if pyLt y cur then y else cur) (some x)
      = some (t.foldl min x)
    clear h
    induction t generalizing x with
    | nil => rfl
    | cons y s ih =>
      simp only [List.map_cons, List.foldl_cons]
      rw [← ih]
      congr 1
      unfold pyLt
      by_cases hxy : y < x
      · rw [if_pos (by simpa using hxy), min_eq_right hxy.le]
      · rw [if_neg (by simpa using hxy), min_eq_left (le_of_not_lt hxy)]

/-- On a NaN-free collection, Python's max agrees with the rational
maximum. -/
theorem pyMaxO_map_some (l : List ℚ) (h : l ≠ []) :
    pyMaxO (l.map some) = some (listMaxD 0 l) := by
  match l with
  | [] => exact absurd rfl h
  | x :: t =>
    show (t.map some).foldl (fun cur y => if pyGt y cur then y else cur) (some x)
      = some (t.foldl max x)
    clear h
    induction t generalizing x with
    | nil => rfl
    | cons y s ih =>
      simp only [List.map_cons, List.foldl_cons]
      rw [← ih]
      congr 1
      unfold pyGt
      by_cases hxy : x < y
      · rw [if_pos (by simpa using hxy), max_eq_right hxy.le]
      · rw [if_neg (by simpa using hxy), max_eq_left (le_of_not_lt hxy)]

/-- On a NaN-free collection the float normalisation agrees with the
rational one. -/
theorem minmaxNormalizeO_map_some (l : List ℚ) :
    minmaxNormalizeO (l.map some) = (minmaxNormalize l).map some := by
  match l with
  | [] => rfl
  | x :: t =>
    unfold minmaxNormalizeO minmaxNormalize
    rw [pyMinO_map_some _ (by simp), pyMaxO_map_some _ (by simp)]
    rw [List.map_map, List.map_map]
    apply List.map_congr_left
    intro q _
    simp only [Function.comp]
    unfold pyGt pySubDiv
    by_cases hlt : listMinD 0 (x :: t) < listMaxD 0 (x :: t)
    · rw [if_pos (by simpa using hlt), if_pos hlt]
    · rw [if_neg (by simpa using hlt), if_neg hlt]

/-- A list without none entries is the some-image of its defined
values. -/
theorem all_some_eq_map (lo : List (Option ℚ)) (h : ∀ x ∈ lo, x ≠ none) :
    lo = (lo.filterMap id).map some := by
  induction lo with
  | nil => rfl
  | cons x t ih =>
    cases x with
    | none => exact absurd rfl (h none (List.mem_cons_self _ _))
    | some q =>
      simp only [List.filterMap_cons, id, List.map_cons]
      congr 1
      exact ih (fun y hy => h y (List.mem_cons_of_mem _ hy))

set_option maxHeartbeats 1600000 in
/-- Claim C6 (counterexample): with numeric columns a = [1,2,3],
b = [1,3,2] and the constant c = [5,5,5], the code's raw numeric scores
are [1.0, 1.0, NaN] — three scored members whose raw scores are not all
equal — yet normalising them exactly as support.py lines 25-27 do (min
and max both evaluate to 1.0, the NaN never winning a comparison, so
max_s > min_s is False) sends every member to 0.0: no member receives
1.0, contradicting the claim. -/
theorem minmax_nan_all_zero_cex :
    (num_scores ⟨[⟨"a", Dtype.int64, [Cell.num 1, Cell.num 2, Cell.num 3]⟩,
        ⟨"b", Dtype.int64, [Cell.num 1, Cell.num 3, Cell.num 2]⟩,
        ⟨"c", Dtype.int64, [Cell.num 5, Cell.num 5, Cell.num 5]⟩]⟩).map (·.2)
      = [some 1, some 1, none]
    ∧ minmaxNormalizeO [some 1, some 1, none] = [some 0, some 0, some 0]
    ∧ (some (1 : ℚ) : Option ℚ) ≠ (none : Option ℚ)
    ∧ some (1 : ℚ) ∉ minmaxNormalizeO [some 1, some 1, none] := by
  refine ⟨?_, by decide, by simp, by decide⟩
  norm_num [num_scores, numericalColsOf, isNumpyNumber, corrSq, pairedObs,
    devPairs, covSum, varSumFst, varSumSnd, lmean, optMax, Column.numVals,
    List.zip, List.zipWith, List.filterMap, List.filter]

/-- Claim C6 (amended): for a type-class score collection with at least 2
scored members in which every raw score is defined (not NaN), min-max
normalisation as the source computes it yields only defined scores in
[0,1], at least one member at 1.0 and one at 0.0 unless all raw scores
are equal, and all members at exactly 0.0 when they are.  The no-NaN
restriction is forced: the numeric scorer emits NaN for a constant
column and the datetime scorer for a column with fewer than two valid
timestamps, and one NaN raw score already defeats the guarantee (see the
counterexample). -/
theorem minmax_normalize_nan_amended (lo : List (Option ℚ))
    (h2 : 2 ≤ lo.length) (hdef : ∀ x ∈ lo, x ≠ none) :
    (∀ x ∈ minmaxNormalizeO lo, ∃ q, x = some q ∧ 0 ≤ q ∧ q ≤ 1)
    ∧ ((∃ a ∈ lo, ∃ b ∈ lo, a ≠ b) →
        some (1 : ℚ) ∈ minmaxNormalizeO lo ∧ some (0 : ℚ) ∈ minmaxNormalizeO lo)
    ∧ ((∀ a ∈ lo, ∀ b ∈ lo, a = b) →
        ∀ x ∈ minmaxNormalizeO lo, x = some 0) := by
  have he := all_some_eq_map lo hdef
  have hlen : 2 ≤ (lo.filterMap id).length := by
    conv at h2 => rw [he]
    simpa using h2
  have hb := minmax_normalize_bounds (lo.filterMap id) hlen
  have hgoal : minmaxNormalizeO lo
      = (minmaxNormalize (lo.filterMap id)).map some := by
    conv_lhs => rw [he]
    exact minmaxNormalizeO_map_some _
  rw [hgoal]
  refine ⟨?_, ?_, ?_⟩
  · intro x hx
    rcases List.mem_map.1 hx with ⟨q, hq, rfl⟩
    exact ⟨q, rfl, (hb.1 q hq).1, (hb.1 q hq).2⟩
  · rintro ⟨a, ha, b, hbm, hab⟩
    cases a with
    | none => exact absurd rfl (hdef none ha)
    | some qa =>
      cases b with
      | none => exact absurd rfl (hdef none hbm)
      | some qb =>
        have hqa : qa ∈ lo.filterMap id := List.mem_filterMap.2 ⟨some qa, ha, rfl⟩
        have hqb : qb ∈ lo.filterMap id := List.mem_filterMap.2 ⟨some qb, hbm, rfl⟩
        have hne : qa ≠ qb := fun hq => hab (by rw [hq])
        have hq := hb.2.1 ⟨qa, hqa, qb, hqb, hne⟩
        exact ⟨List.mem_map.2 ⟨1, hq.1, rfl⟩, List.mem_map.2 ⟨0, hq.2, rfl⟩⟩
  · intro hall x hx
    rcases List.mem_map.1 hx with ⟨q, hq, rfl⟩
    have heq : ∀ a ∈ lo.filterMap id, ∀ b ∈ lo.filterMap id, a = b := by
      intro a ha b hbm
      rcases List.mem_filterMap.1 ha with ⟨xa, hxa, hida⟩
      rcases List.mem_filterMap.1 hbm with ⟨xb, hxb, hidb⟩
      have := hall xa hxa xb hxb
      rw [show xa = some a from hida, show xb = some b from hidb] at this
      simpa using this
    rw [hb.2.2 heq q hq]

/-- Claim C6 witness: the amended theorem applied to the defined score
collection [1.0, 3.0]. -/
theorem minmax_normalize_nan_amended_witness :
    2 ≤ ([some 1, some 3] : List (Option ℚ)).length
    ∧ (∀ x ∈ ([some 1, some 3] : List (Option ℚ)), x ≠ none)
    ∧ (∀ x ∈ minmaxNormalizeO [some 1, some 3],
        ∃ q, x = some q ∧ 0 ≤ q ∧ q ≤ 1) :=
  ⟨by decide, by decide,
    (minmax_normalize_nan_amended [some 1, some 3] (by decide) (by decide)).1⟩

/-!  ### Categorical scoring: support.py lines 14-17 and 29-44

The chi-square independence test of scipy is an external collaborator; it
is a parameter `chi2p` mapping a contingency table to its p-value, or to
none when scipy raises ValueError (e.g. a zero expected frequency). -/

/-- support.py line 14: select_dtypes(include=['object','category','bool']). -/
def isSupportCategorical : Dtype → Bool
  | .objectD | .categoryD | .boolD => true
  | _ => false

/-- pandas Series.nunique: the number of distinct non-null values. -/
def nuniqueNonNull (c : Column) : ℕ :=
  ((c.cells.filter (fun x => !x.isNull)).dedup).length

/-- support.py line 17: the scored categorical columns are those with
fewer than 50 distinct values; higher-cardinality columns are dropped from
the list entirely. -/
def eligibleCats (df : DataFrame) : List Column :=
  (df.cols.filter (fun c => isSupportCategorical c.dtype)).filter
    (fun c => nuniqueNonNull c < 50)

/-- The unordered pairs (i, j) with i before j, in the iteration order of
the nested loops of support.py lines 31-32. -/
def upairs {α : Type} : List α → List (α × α)
  | [] => []
  | x :: t => t.map (fun y => (x, y)) ++ upairs t

/-- Positions where both columns are non-null: pd.crosstab drops the rows
in which either side is missing. -/
def pairedCells (c1 c2 : Column) : List (Cell × Cell) :=
  (c1.cells.zip c2.cells).filter (fun z => !z.1.isNull && !z.2.isNull)

/-- The contingency table of pd.crosstab(df[col1], df[col2]) as a count
matrix: one row per distinct left value, one column per distinct right
value (row/column label order does not affect any use). -/
def crosstab (c1 c2 : Column) : List (List ℕ) :=
  ((pairedCells c1 c2).map (·.1)).dedup.map (fun r =>
    ((pairedCells c1 c2).map (·.2)).dedup.map (fun v =>
      ((pairedCells c1 c2).filter (fun z => z.1 == r && z.2 == v)).length))

/-- support.py line 34: the degeneracy guard — the table must have more
than one non-empty row and more than one non-empty column (which also
makes it non-empty). -/
def crosstabOK (c1 c2 : Column) : Bool :=
  decide (((pairedCells c1 c2).map (·.1)).dedup.length > 1)
    && decide (((pairedCells c1 c2).map (·.2)).dedup.length > 1)

/-- cat_strength[col] = max(cat_strength[col], score): update the entry
with the given key in the strength dict. -/
def strengthUpd (m : List (String × ℚ)) (k : String) (v : ℚ) :
    List (String × ℚ) :=
  m.map (fun e => if e.1 == k then (e.1, max e.2 v) else e)

/-- The body of the pair loop of support.py lines 33-41: build the
crosstab; if it passes the shape guard, run the chi-square test and fold
score = 1 - p into both columns' strengths; a ValueError (chi2p = none)
contributes nothing; a failed guard contributes nothing. -/
def catPairStep (chi2p : List (List ℕ) → Option ℚ) (m : List (String × ℚ))
    (pr : Column × Column) : List (String × ℚ) :=
  if crosstabOK pr.1 pr.2 then
    match chi2p (crosstab pr.1 pr.2) with
    | some p => strengthUpd (strengthUpd m pr.1.name (1 - p)) pr.2.name (1 - p)
    | none => m
  else m

/-- support.py lines 30-41: the raw categorical strengths, initialised to
0 for every eligible column and folded over all unordered pairs. -/
def cat_strength (chi2p : List (List ℕ) → Option ℚ) (df : DataFrame) :
    List (String × ℚ) :=
  (upairs (eligibleCats df)).foldl (catPairStep chi2p)
    ((eligibleCats df).map (fun c => (c.name, 0)))

/-- A pair is valid when its table passes the shape guard and the
chi-square test returns a p-value rather than raising. -/
def validPair (chi2p : List (List ℕ) → Option ℚ) (pr : Column × Column) : Bool :=
  crosstabOK pr.1 pr.2 && (chi2p (crosstab pr.1 pr.2)).isSome

/-- support.py lines 29 and 42-44: the categorical branch runs only with
at least two eligible columns and min-max-normalises the raw strengths. -/
def categorical_branch (chi2p : List (List ℕ) → Option ℚ) (df : DataFrame) :
    List (String × ℚ) :=
  if (eligibleCats df).length > 1 then
    ((cat_strength chi2p df).map (·.1)).zip
      (minmaxNormalize ((cat_strength chi2p df).map (·.2)))
  else []

theorem catPairStep_invalid (chi2p : List (List ℕ) → Option ℚ)
    (m : List (String × ℚ)) (pr : Column × Column)
    (h : validPair chi2p pr = false) : catPairStep chi2p m pr = m := by
  unfold validPair at h
  unfold catPairStep
  by_cases hok : crosstabOK pr.1 pr.2
  · rw [if_pos hok]
    simp only [hok, Bool.true_and] at h
    cases hc : chi2p (crosstab pr.1 pr.2) with
    | none => rfl
    | some p =>
      rw [hc] at h
      simp at h
  · rw [if_neg hok]

theorem foldl_filter_id {α β : Type} (f : β → α → β) (p : α → Bool)
    (hid : ∀ b a, p a = false → f b a = b) (l : List α) :
    ∀ b, l.foldl f b = (l.filter p).foldl f b := by
  induction l with
  | nil => intro b; rfl
  | cons a t ih =>
    intro b
    by_cases hp : p a
    · simp only [List.foldl_cons, List.filter_cons, hp, if_true]
      exact ih _
    · simp only [List.foldl_cons, List.filter_cons, hp]
      rw [hid b a (by simpa using hp)]
      simpa using ih b

theorem strengthUpd_keys (m : List (String × ℚ)) (k : String) (v : ℚ) :
    (strengthUpd m k v).map (·.1) = m.map (·.1) := by
  unfold strengthUpd
  rw [List.map_map]
  apply List.map_congr_left
  intro e _
  by_cases he : e.1 = k <;> simp [he]

theorem strengthUpd_zero {m : List (String × ℚ)} {cname k : String} {v : ℚ}
    (hk : k ≠ cname) (hm : ∀ e ∈ m, e.1 = cname → e.2 = 0) :
    ∀ e ∈ strengthUpd m k v, e.1 = cname → e.2 = 0 := by
  unfold strengthUpd
  intro e he hcn
  rcases List.mem_map.1 he with ⟨e0, he0, hee⟩
  by_cases hb : e0.1 == k
  · rw [if_pos hb] at hee
    have h1 : e0.1 = k := by simpa using hb
    have h2 : e.1 = e0.1 := by rw [← hee]
    have hkc : k = cname := by rw [← h1, ← h2, hcn]
    exact absurd hkc hk
  · rw [if_neg (by simpa using hb)] at hee
    subst hee
    exact hm e0 he0 hcn

theorem catPairStep_keys (chi2p : List (List ℕ) → Option ℚ)
    (m : List (String × ℚ)) (pr : Column × Column) :
    (catPairStep chi2p m pr).map (·.1) = m.map (·.1) := by
  unfold catPairStep
  by_cases hok : crosstabOK pr.1 pr.2
  · rw [if_pos hok]
    cases chi2p (crosstab pr.1 pr.2) with
    | none => rfl
    | some p => rw [strengthUpd_keys, strengthUpd_keys]
  · rw [if_neg hok]

theorem catPairStep_zero (chi2p : List (List ℕ) → Option ℚ) {cname : String}
    (pr : Column × Column) (m : List (String × ℚ))
    (hpr : (pr.1.name = cname ∨ pr.2.name = cname) → validPair chi2p pr = false)
    (hm : ∀ e ∈ m, e.1 = cname → e.2 = 0) :
    ∀ e ∈ catPairStep chi2p m pr, e.1 = cname → e.2 = 0 := by
  by_cases hv : validPair chi2p pr
  · have hn1 : pr.1.name ≠ cname := by
      intro h
      rw [hpr (Or.inl h)] at hv
      exact absurd hv (by simp)
    have hn2 : pr.2.name ≠ cname := by
      intro h
      rw [hpr (Or.inr h)] at hv
      exact absurd hv (by simp)
    unfold validPair at hv
    rcases Bool.and_eq_true_iff.1 hv with ⟨hok, hsome⟩
    unfold catPairStep
    rw [if_pos hok]
    cases hcp : chi2p (crosstab pr.1 pr.2) with
    | none => exact hm
    | some p => exact strengthUpd_zero hn2 (strengthUpd_zero hn1 hm)
  · rw [catPairStep_invalid chi2p m pr (by simpa using hv)]
    exact hm

theorem catFold_keys (chi2p : List (List ℕ) → Option ℚ)
    (prs : List (Column × Column)) :
    ∀ m, (prs.foldl (catPairStep chi2p) m).map (·.1) = m.map (·.1) := by
  induction prs with
  | nil => intro m; rfl
  | cons pr t ih =>
    intro m
    simp only [List.foldl_cons]
    rw [ih, catPairStep_keys]

theorem catFold_zero (chi2p : List (List ℕ) → Option ℚ) {cname : String}
    (prs : List (Column × Column))
    (hprs : ∀ pr ∈ prs, (pr.1.name = cname ∨ pr.2.name = cname) →
      validPair chi2p pr = false) :
    ∀ m, (∀ e ∈ m, e.1 = cname → e.2 = 0) →
      ∀ e ∈ prs.foldl (catPairStep chi2p) m, e.1 = cname → e.2 = 0 := by
  induction prs with
  | nil => intro m hm; exact hm
  | cons pr t ih =>
    intro m hm
    simp only [List.foldl_cons]
    exact ih (fun q hq => hprs q (List.mem_cons_of_mem _ hq)) _
      (catPairStep_zero chi2p pr m (hprs pr (List.mem_cons_self _ _)) hm)

theorem lookup_zero_of_entries {m : List (String × ℚ)} {k : String}
    (hk : k ∈ m.map (·.1)) (h0 : ∀ e ∈ m, e.1 = k → e.2 = 0) :
    m.lookup k = some 0 := by
  induction m with
  | nil => simp at hk
  | cons e t ih =>
    by_cases hke : k = e.1
    · have h2 : e.2 = 0 := h0 e (List.mem_cons_self _ _) hke.symm
      rcases e with ⟨k0, v0⟩
      simp only at h2 hke
      subst h2 hke
      simp [List.lookup]
    · rcases e with ⟨k0, v0⟩
      simp only at hke
      have hbe : (k == k0) = false := by simpa using hke
      simp only [List.lookup, hbe]
      apply ih
      · rcases List.mem_map.1 hk with ⟨e0, he0, hee⟩
        rcases List.mem_cons.1 he0 with h1 | h1
        · exact absurd (by rw [← hee, h1]) hke
        · exact List.mem_map.2 ⟨e0, h1, hee⟩
      · exact fun e0 he0 => h0 e0 (List.mem_cons_of_mem _ he0)

/-- Claim C7: in categorical scoring, a pair whose contingency table fails
the shape guard or whose chi-square test raises contributes nothing — the
whole strength fold equals the fold over the valid pairs only, so scoring
of all other pairs still completes — and an eligible column all of whose
pairings are invalid keeps raw score 0. -/
theorem cat_strength_degenerate_pairs (chi2p : List (List ℕ) → Option ℚ)
    (df : DataFrame) :
    cat_strength chi2p df
      = ((upairs (eligibleCats df)).filter (validPair chi2p)).foldl
          (catPairStep chi2p) ((eligibleCats df).map (fun c => (c.name, 0)))
    ∧ ∀ c ∈ eligibleCats df,
        (∀ pr ∈ upairs (eligibleCats df),
            (pr.1.name = c.name ∨ pr.2.name = c.name) →
            validPair chi2p pr = false) →
        (cat_strength chi2p df).lookup c.name = some 0 := by
  constructor
  · unfold cat_strength
    exact foldl_filter_id _ _ (fun b a h => catPairStep_invalid chi2p b a h) _ _
  · intro c hc hnone
    apply lookup_zero_of_entries
    · unfold cat_strength
      rw [catFold_keys, List.map_map]
      exact List.mem_map.2 ⟨c, hc, rfl⟩
    · exact catFold_zero chi2p _ hnone _ (by
        intro e he h1
        rcases List.mem_map.1 he with ⟨c0, _, rfl⟩
        rfl)

/-- Claim C7 witness: two constant object columns give a 1-by-1 table for
their only pairing, the guard fails, and both raw scores stay 0. -/
theorem cat_strength_degenerate_pairs_witness :
    ((⟨"x", Dtype.objectD, [Cell.str "a", Cell.str "a"]⟩ : Column)
      ∈ eligibleCats ⟨[⟨"x", Dtype.objectD, [Cell.str "a", Cell.str "a"]⟩,
          ⟨"y", Dtype.objectD, [Cell.str "b", Cell.str "b"]⟩]⟩)
    ∧ (∀ pr ∈ upairs (eligibleCats ⟨[⟨"x", Dtype.objectD, [Cell.str "a", Cell.str "a"]⟩,
          ⟨"y", Dtype.objectD, [Cell.str "b", Cell.str "b"]⟩]⟩),
        (pr.1.name = (⟨"x", Dtype.objectD, [Cell.str "a", Cell.str "a"]⟩ : Column).name
          ∨ pr.2.name = (⟨"x", Dtype.objectD, [Cell.str "a", Cell.str "a"]⟩ : Column).name) →
        validPair (fun _ => none) pr = false)
    ∧ (cat_strength (fun _ => none)
        ⟨[⟨"x", Dtype.objectD, [Cell.str "a", Cell.str "a"]⟩,
          ⟨"y", Dtype.objectD, [Cell.str "b", Cell.str "b"]⟩]⟩).lookup
        (⟨"x", Dtype.objectD, [Cell.str "a", Cell.str "a"]⟩ : Column).name = some 0 :=
  ⟨by decide, by decide,
    (cat_strength_degenerate_pairs (fun _ => none)
      ⟨[⟨"x", Dtype.objectD, [Cell.str "a", Cell.str "a"]⟩,
        ⟨"y", Dtype.objectD, [Cell.str "b", Cell.str "b"]⟩]⟩).2
      ⟨"x", Dtype.objectD, [Cell.str "a", Cell.str "a"]⟩ (by decide) (by decide)⟩

/-!  ### Datetime pass of the feature scorer: support.py lines 46-53

For each column of dtype datetime64 the source executes
df[col] = pd.to_datetime(df[col], errors='coerce'), writing the coerced
series back into the caller's dataframe.  The parse attempt on a
non-datetime value is the oracle `pe`. -/

/-- pd.to_datetime(value, errors='coerce') on a single cell: an existing
timestamp is returned unchanged, a missing value stays missing (NaT), any
other value parses to a timestamp or coerces to NaT. -/
def coerceDatetimeCell (pe : Cell → Option ℤ) : Cell → Cell
  | .dt t => .dt t
  | .null => .null
  | c =>
    match pe c with
    | some t => .dt t
    | none => .null

/-- support.py line 13 (datetime part) and lines 46-53: every column whose
dtype is datetime64 is overwritten in place with its coerced series; all
other columns are untouched.  The result is the dataframe the caller holds
after dataset_feature_analysis returns. -/
def support_dt_pass (pe : Cell → Option ℤ) (df : DataFrame) : DataFrame :=
  ⟨df.cols.map (fun c =>
    if c.dtype == Dtype.datetime64 then
      ⟨c.name, c.dtype, c.cells.map (coerceDatetimeCell pe)⟩
    else c)⟩

/-- A dataframe is datetime-well-typed when every datetime64 column holds
only timestamps and missing values — what pandas dtype discipline
guarantees for a real dataframe. -/
def wellTypedDT (df : DataFrame) : Bool :=
  df.cols.all (fun c =>
    (c.dtype != Dtype.datetime64) || c.cells.all (fun x => x.isNull || x.isDt))

/-- Claim C10 (counterexample): the claim's conclusion — "the caller's
dataframe is not the same after scoring when datetime columns are
present" — fails on a concrete dataframe with a datetime64 column: the
columns the scorer coerces are exactly the datetime64-dtyped ones, on
which errors='coerce' is the identity, so the dataframe is unchanged. -/
theorem support_dt_pass_identity_cex :
    support_dt_pass (fun _ => none)
        ⟨[⟨"d", Dtype.datetime64, [Cell.dt 100, Cell.null]⟩,
          ⟨"x", Dtype.int64, [Cell.num 1, Cell.num 2]⟩]⟩
      = ⟨[⟨"d", Dtype.datetime64, [Cell.dt 100, Cell.null]⟩,
          ⟨"x", Dtype.int64, [Cell.num 1, Cell.num 2]⟩]⟩
    ∧ (⟨[⟨"d", Dtype.datetime64, [Cell.dt 100, Cell.null]⟩,
          ⟨"x", Dtype.int64, [Cell.num 1, Cell.num 2]⟩]⟩ : DataFrame).cols.any
        (fun c => c.dtype == Dtype.datetime64) = true := by
  constructor
  · rfl
  · decide

/-- Claim C10 (amended): the feature scorer does write each datetime64
column back in place as its coerced series and leaves every non-datetime
column untouched; but the columns it coerces are exactly the
datetime64-dtyped ones, on which coercion is the identity (timestamps map
to themselves, missing values stay missing), so for every well-typed
dataframe the caller's dataframe is value-identical after scoring — the
in-place write never changes the contents, and "unparseable entries become
null" never applies because a datetime64 column has no unparseable
entries. -/
theorem support_dt_pass_amended (pe : Cell → Option ℤ) (df : DataFrame) :
    (∀ i, i < df.cols.length →
      (df.cols.getD i ⟨"", Dtype.int64, []⟩).dtype ≠ Dtype.datetime64 →
      (support_dt_pass pe df).cols.getD i ⟨"", Dtype.int64, []⟩
        = df.cols.getD i ⟨"", Dtype.int64, []⟩)
    ∧ (wellTypedDT df = true → support_dt_pass pe df = df) := by
  constructor
  · intro i hi hdt
    unfold support_dt_pass
    simp only [List.getD_eq_getElem?_getD, List.getElem?_map] at hdt ⊢
    cases hq : df.cols[i]? with
    | none => simp
    | some c =>
      rw [hq] at hdt
      simp only [Option.getD_some, Option.map_some'] at hdt ⊢
      rw [if_neg (by simpa using hdt)]
  · intro hwt
    unfold support_dt_pass
    unfold wellTypedDT at hwt
    rcases df with ⟨cols⟩
    simp only at hwt ⊢
    congr 1
    have hpt : ∀ c ∈ cols,
        (if c.dtype == Dtype.datetime64 then
          (⟨c.name, c.dtype, c.cells.map (coerceDatetimeCell pe)⟩ : Column)
        else c) = c := by
      intro c hc
      by_cases hdt : c.dtype == Dtype.datetime64
      · rw [if_pos hdt]
        have hall := List.all_eq_true.1 hwt c hc
        rw [Bool.or_eq_true] at hall
        rcases hall with hne | hcells
        · exact absurd hdt (by simpa using hne)
        · have hcid : c.cells.map (coerceDatetimeCell pe) = c.cells := by
            have : ∀ x ∈ c.cells, coerceDatetimeCell pe x = x := by
              intro x hx
              have hx2 := List.all_eq_true.1 hcells x hx
              cases x with
              | null => rfl
              | dt t => rfl
              | num q => simp [Cell.isNull, Cell.isDt] at hx2
              | str s => simp [Cell.isNull, Cell.isDt] at hx2
              | boolv b => simp [Cell.isNull, Cell.isDt] at hx2
            calc c.cells.map (coerceDatetimeCell pe) = c.cells.map id :=
                  List.map_congr_left this
              _ = c.cells := List.map_id c.cells
          rw [hcid]
      · rw [if_neg hdt]
    calc cols.map (fun c =>
          if c.dtype == Dtype.datetime64 then
            (⟨c.name, c.dtype, c.cells.map (coerceDatetimeCell pe)⟩ : Column)
          else c)
        = cols.map id := List.map_congr_left hpt
      _ = cols := List.map_id cols

/-- Claim C10 witness: the amended theorem's well-typed case applied to a
concrete dataframe with one datetime64 column. -/
theorem support_dt_pass_amended_witness :
    wellTypedDT ⟨[⟨"d", Dtype.datetime64, [Cell.dt 3, Cell.null]⟩]⟩ = true
    ∧ support_dt_pass (fun _ => some 0)
        ⟨[⟨"d", Dtype.datetime64, [Cell.dt 3, Cell.null]⟩]⟩
      = ⟨[⟨"d", Dtype.datetime64, [Cell.dt 3, Cell.null]⟩]⟩ :=
  ⟨by decide, (support_dt_pass_amended (fun _ => some 0)
    ⟨[⟨"d", Dtype.datetime64, [Cell.dt 3, Cell.null]⟩]⟩).2 (by decide)⟩

/-!  ### Profiling a numeric column: uni.py process_numerical (lines 26-41)

Exact rational arithmetic stands in for float arithmetic; a pandas NaN
statistic and a Python None are both the absent value none.  Series.std,
Series.skew and Series.kurt of the source involve square roots; each model
field below is none exactly when the source statistic is NaN, and in the
defined case carries an exact rational determining the source value
through a strictly monotone map (documented per field); only the
none/some structure is used by the claims. -/

/-- The sorted values (List.insertionSort is stable, matching the sort
pandas uses for the median). -/
def sortedQ (l : List ℚ) : List ℚ := List.insertionSort (· ≤ ·) l

/-- pandas Series.median: NaN on an empty series, the middle element of
the sorted values for odd length, the mean of the two middle elements for
even length. -/
def medianQ (l : List ℚ) : Option ℚ :=
  if l.length = 0 then none
  else if l.length % 2 = 1 then some ((sortedQ l).getD (l.length / 2) 0)
  else some (((sortedQ l).getD (l.length / 2 - 1) 0
    + (sortedQ l).getD (l.length / 2) 0) / 2)

/-- s.mode().iloc[0] guarded by s.mode().empty (uni.py line 33): the
smallest among the most frequent values (Series.mode returns the modal
values sorted ascending), None on an empty series. -/
def modeQ (l : List ℚ) : Option ℚ :=
  if l = [] then none
  else some (listMinD 0 (l.dedup.filter
    (fun v => l.count v = listMaxD 0 ((l.dedup.map (fun w => (l.count w : ℚ)))))))

/-- Sample variance with ddof = 1: NaN (none) for fewer than two
observations, exactly as pandas Series.std; the source's std is its
square root, which is defined exactly when the variance is. -/
def sampleVar (l : List ℚ) : Option ℚ :=
  if l.length < 2 then none
  else some ((l.map (fun x => (x - lmean l) ^ 2)).sum / ((l.length : ℚ) - 1))

/-- pandas Series.skew: NaN for fewer than 3 observations; 0 when the
second central moment vanishes; otherwise the adjusted Fisher-Pearson
coefficient n²·(n-1)·m3 / ((n-2)²·m2³) — stored as the signed square
m3·|m3| variant of the source's m3/m2^(3/2) value, its image under the
strictly monotone map x ↦ x·|x|. -/
def skewQ (l : List ℚ) : Option ℚ :=
  if l.length < 3 then none
  else
    if (l.map (fun x => (x - lmean l) ^ 2)).sum = 0 then some 0
    else some (((l.length : ℚ) ^ 2 * ((l.length : ℚ) - 1))
      * ((l.map (fun x => (x - lmean l) ^ 3)).sum / l.length)
      * (|(l.map (fun x => (x - lmean l) ^ 3)).sum| / l.length)
      / (((l.length : ℚ) - 2) ^ 2
        * ((l.map (fun x => (x - lmean l) ^ 2)).sum / l.length) ^ 3))

/-- pandas Series.kurt: NaN for fewer than 4 observations; 0 when the
denominator vanishes; otherwise the exact adjusted excess kurtosis
n(n+1)(n-1)/((n-2)(n-3)) · m4/m2² − 3(n-1)²/((n-2)(n-3)), which is
rational. -/
def kurtQ (l : List ℚ) : Option ℚ :=
  if l.length < 4 then none
  else
    if (l.map (fun x => (x - lmean l) ^ 2)).sum = 0 then some 0
    else some ((l.length : ℚ) * ((l.length : ℚ) + 1) * ((l.length : ℚ) - 1)
        / (((l.length : ℚ) - 2) * ((l.length : ℚ) - 3))
        * (((l.map (fun x => (x - lmean l) ^ 4)).sum / l.length)
          / ((l.map (fun x => (x - lmean l) ^ 2)).sum / l.length) ^ 2)
      - 3 * ((l.length : ℚ) - 1) ^ 2
        / (((l.length : ℚ) - 2) * ((l.length : ℚ) - 3)))

/-- The stats dict built by uni.py process_numerical lines 29-41 (minV and
maxV are the source's "min"/"max" keys). -/
structure NumStats where
  mean : Option ℚ
  median : Option ℚ
  mode : Option ℚ
  std : Option ℚ
  minV : Option ℚ
  maxV : Option ℚ
  skewness : Option ℚ
  kurtosis : Option ℚ
  missing_values : ℕ
  unique_values : ℕ
deriving DecidableEq

/-- uni.py process_numerical, statistics part (lines 26-41): s = the
column's non-null values; every statistic of s; missing_values counts the
nulls of the full column; unique_values the distinct non-null values.
(The plot file the function also writes belongs to the external charting
collaborator and is outside the analysis result.) -/
def process_numerical (col : List (Option ℚ)) : NumStats :=
  let s := col.filterMap id
  { mean := if s.isEmpty then none else some (lmean s)
    median := medianQ s
    mode := modeQ s
    std := sampleVar s
    minV := if s.isEmpty then none else some (listMinD 0 s)
    maxV := if s.isEmpty then none else some (listMaxD 0 s)
    skewness := skewQ s
    kurtosis := kurtQ s
    missing_values := (col.filter (fun x => x.isNone)).length
    unique_values := s.dedup.length }

/-- Claim C9: profiling a numeric column with no non-null values returns
missing_values equal to the row count, null (none) for every statistic
that needs at least one observation — mean, median, mode, std, min, max,
skewness, kurtosis — and raises no exception (the function is total). -/
theorem process_numerical_all_null (n : ℕ) :
    process_numerical (List.replicate n none)
      = ⟨none, none, none, none, none, none, none, none, n, 0⟩ := by
  have hfm : (List.replicate n none : List (Option ℚ)).filterMap id = [] := by
    induction n with
    | zero => rfl
    | succ k ih => simp [List.replicate_succ, ih]
  have hfl : ((List.replicate n none : List (Option ℚ)).filter
      (fun x => x.isNone)).length = n := by
    induction n with
    | zero => rfl
    | succ k ih => simp [List.replicate_succ, ih]
  unfold process_numerical
  rw [hfm]
  simp [medianQ, modeQ, sampleVar, skewQ, kurtQ, hfl]

/-!  ### Job coordinator: data.py worker_loop (lines 396-459) and
process_csv_file (lines 344-393)

The shared directory tree is an association list from paths to file
contents, observed only through fsRead; one sweep of the polling loop is a
fold of the per-job body over the discovered job ids — the body reads
nothing but the filesystem (there is no in-memory bookkeeping in the
source loop either).  The pandas readers are the oracle parseTab (none =
pd.read_csv / pd.read_excel raised on that content). -/

/-- A path in the shared storage: outputs/<job>/<file> when isOutput is
true, uploads/<job>/<file> otherwise. -/
structure FPath where
  isOutput : Bool
  job : String
  file : String
deriving DecidableEq

/-- What a job's report.json can hold: the analysis (with the
data_type_tuples process_csv_file appends) or the error dict produced
when read_file failed. -/
inductive WorkerReport where
  | analysis (sep : List String × List String × List String)
  | readError (job_id : String)
deriving DecidableEq

/-- A stored file: plain text (status.txt, uploaded data) or the
serialised report.json. -/
inductive FileData where
  | text (s : String)
  | jsonReport (r : WorkerReport)
deriving DecidableEq

/-- The filesystem: an association of paths to contents. -/
abbrev FS := List (FPath × FileData)

/-- Reading a path: the first entry with that path, if any. -/
def fsRead (fs : FS) (p : FPath) : Option FileData :=
  (fs.find? (fun e => e.1 == p)).map (·.2)

/-- open(path, "w"): create the file or overwrite its contents.  (The
representation drops the stale entry; the filesystem is observed only
through fsRead, for which this is exactly overwrite-or-create.) -/
def fsWrite (fs : FS) (p : FPath) (d : FileData) : FS :=
  (p, d) :: fs.filter (fun e => e.1 != p)

/-- os.path.splitext(name)[1].lower(): the final dot-extension. -/
def fileExt (fname : String) : String :=
  if (fname.splitOn ".").length ≤ 1 then ""
  else "." ++ (fname.splitOn ".").getLastD ""

/-- data.py read_file (lines 18-36): a csv/xlsx/xls file is handed to the
pandas reader; an unsupported extension raises ValueError — but the
function catches EVERY exception itself, prints, and returns False
(modelled none), so no exception ever escapes read_file. -/
def read_file (parseTab : String → Option DataFrame)
    (file_name content : String) : Option DataFrame :=
  if fileExt file_name.toLower = ".csv" ∨ fileExt file_name.toLower = ".xlsx"
      ∨ fileExt file_name.toLower = ".xls" then
    parseTab content
  else none

/-- data.py process_file_for_worker (lines 344-358): a failed read yields
the error dict — as an ordinary return value, not an exception; a
successful read yields the analysis report. -/
def process_file_for_worker (parses : Cell → Bool)
    (parseTab : String → Option DataFrame)
    (file_name content job_id : String) : WorkerReport :=
  match read_file parseTab file_name content with
  | none => .readError job_id
  | some df => .analysis (separate_data_types parses df)

/-- data.py process_csv_file (lines 364-393): the try-block calls
process_file_for_worker and separate_data_types, neither of which can
raise — read_file swallows every reader exception and returns False, after
which separate_data_types just returns (None, None, None) for the missing
dataframe — so the except-branch returning success = False is unreachable
and the success flag is True even when the result is the error dict. -/
def process_csv_file (parses : Cell → Bool)
    (parseTab : String → Option DataFrame)
    (job_id file_name content : String) : WorkerReport × Bool :=
  (process_file_for_worker parses parseTab file_name content job_id, true)

/-- The glob suffix test: glob("*.ext") matches exactly the file names
ending in ".ext" (a character-list suffix test). -/
def hasSuffix (fname sfx : String) : Bool := List.isSuffixOf sfx.data fname.data

/-- data.py worker_loop lines 418-427: glob("*.csv") first, else the
Excel patterns; the first matching upload of the job together with its
content. -/
def jobInputFile (fs : FS) (job : String) : Option (String × String) :=
  let ups := fs.filterMap (fun e =>
    match e with
    | (p, FileData.text s) =>
      if !p.isOutput && p.job == job then some (p.file, s) else none
    | _ => none)
  let csvs := ups.filter (fun u => hasSuffix u.1 ".csv")
  let files := if csvs.isEmpty then
      ups.filter (fun u => hasSuffix u.1 ".xlsx")
        ++ ups.filter (fun u => hasSuffix u.1 ".xls")
    else csvs
  files.head?

/-- The per-job body of data.py worker_loop (lines 406-454): skip when
report.json and status.txt both already exist (the idempotency check,
computed from the filesystem alone); skip silently when the job has no
supported input file; otherwise write "processing", run the pipeline,
write report.json (in both the success and the error case), and rewrite
status.txt with the final state. -/
def processJob (parses : Cell → Bool) (parseTab : String → Option DataFrame)
    (fs : FS) (job : String) : FS :=
  if (fsRead fs ⟨true, job, "report.json"⟩).isSome
      && (fsRead fs ⟨true, job, "status.txt"⟩).isSome then fs
  else
    match jobInputFile fs job with
    | none => fs
    | some (fname, content) =>
      let fs1 := fsWrite fs ⟨true, job, "status.txt"⟩ (.text "processing")
      let r := process_csv_file parses parseTab job fname content
      let fs2 := fsWrite fs1 ⟨true, job, "report.json"⟩ (.jsonReport r.1)
      fsWrite fs2 ⟨true, job, "status.txt"⟩
        (.text (if r.2 then "completed" else "failed"))

/-- One sweep of worker_loop over the discovered job directories. -/
def worker_sweep (parses : Cell → Bool) (parseTab : String → Option DataFrame)
    (fs : FS) (jobs : List String) : FS :=
  jobs.foldl (processJob parses parseTab) fs

theorem find_filter_ne (fs : FS) (p q : FPath) (h : q ≠ p) :
    (fs.filter (fun e => e.1 != p)).find? (fun e => e.1 == q)
      = fs.find? (fun e => e.1 == q) := by
  induction fs with
  | nil => rfl
  | cons e t ih =>
    rw [List.filter_cons]
    by_cases hep : e.1 = p
    · rw [if_neg (by simp [hep])]
      have h2 : (e.1 == q) = false := by
        rw [hep]
        simpa using Ne.symm h
      rw [List.find?_cons_of_neg _ (by simp [h2])]
      exact ih
    · rw [if_pos (by simpa using hep)]
      by_cases heq : e.1 = q
      · rw [List.find?_cons_of_pos _ (by simpa using heq),
          List.find?_cons_of_pos _ (by simpa using heq)]
      · have h2 : (e.1 == q) = false := by simpa using heq
        rw [List.find?_cons_of_neg _ (by simp [h2]),
          List.find?_cons_of_neg _ (by simp [h2])]
        exact ih

/-- Read-after-write: a write is visible at its own path and invisible at
every other. -/
theorem fsRead_fsWrite (fs : FS) (p q : FPath) (d : FileData) :
    fsRead (fsWrite fs p d) q = if q = p then some d else fsRead fs q := by
  unfold fsRead fsWrite
  by_cases hqp : q = p
  · subst hqp
    simp [List.find?]
  · have hb : ((p, d).1 == q) = false := by
      simp only [beq_eq_false_iff_ne, ne_eq]
      exact fun hpq => hqp hpq.symm
    simp only [List.find?, hb, if_neg hqp]
    rw [find_filter_ne fs p q hqp]

/-- The per-job body touches only paths in the job's own output
directory. -/
theorem processJob_preserves_other (parses : Cell → Bool)
    (parseTab : String → Option DataFrame) (fs : FS) (k : String)
    {j : String} (hkj : k ≠ j) (f : String) :
    fsRead (processJob parses parseTab fs k) ⟨true, j, f⟩
      = fsRead fs ⟨true, j, f⟩ := by
  have hne : ∀ g : String, (⟨true, j, f⟩ : FPath) ≠ ⟨true, k, g⟩ := by
    intro g he
    have hjk : j = k := congrArg FPath.job he
    exact hkj hjk.symm
  unfold processJob
  by_cases hskip : ((fsRead fs ⟨true, k, "report.json"⟩).isSome
      && (fsRead fs ⟨true, k, "status.txt"⟩).isSome) = true
  · rw [if_pos hskip]
  · rw [if_neg hskip]
    cases hin : jobInputFile fs k with
    | none => rfl
    | some u =>
      rcases u with ⟨fname, content⟩
      simp only
      rw [fsRead_fsWrite, if_neg (hne _), fsRead_fsWrite, if_neg (hne _),
        fsRead_fsWrite, if_neg (hne _)]

/-- Claim C2: a job whose output directory already contains the status
marker and the report artifact is never reprocessed by a coordinator
sweep — every file of that job's output directory reads byte-identically
afterwards.  The skip decision is computed from the filesystem alone: the
sweep is a pure function of the filesystem and the directory listing. -/
theorem worker_sweep_idempotent (parses : Cell → Bool)
    (parseTab : String → Option DataFrame) (fs : FS) (jobs : List String)
    (j : String)
    (hr : (fsRead fs ⟨true, j, "report.json"⟩).isSome = true)
    (hs : (fsRead fs ⟨true, j, "status.txt"⟩).isSome = true) :
    ∀ f, fsRead (worker_sweep parses parseTab fs jobs) ⟨true, j, f⟩
      = fsRead fs ⟨true, j, f⟩ := by
  induction jobs generalizing fs with
  | nil => intro f; rfl
  | cons k t ih =>
    intro f
    show fsRead (worker_sweep parses parseTab
      (processJob parses parseTab fs k) t) ⟨true, j, f⟩ = _
    by_cases hkj : k = j
    · subst hkj
      have hid : processJob parses parseTab fs k = fs := by
        unfold processJob
        rw [if_pos (by rw [hr, hs]; rfl)]
      rw [hid]
      exact ih fs hr hs f
    · have hpre := processJob_preserves_other parses parseTab fs k hkj
      have hr' : (fsRead (processJob parses parseTab fs k)
          ⟨true, j, "report.json"⟩).isSome = true := by rw [hpre]; exact hr
      have hs' : (fsRead (processJob parses parseTab fs k)
          ⟨true, j, "status.txt"⟩).isSome = true := by rw [hpre]; exact hs
      rw [ih _ hr' hs' f, hpre]

/-- Claim C2 witness: a completed job's files are untouched by a sweep of
a concrete filesystem. -/
theorem worker_sweep_idempotent_witness :
    (fsRead [(⟨true, "j1", "report.json"⟩, FileData.jsonReport (.analysis ([], [], []))),
        (⟨true, "j1", "status.txt"⟩, FileData.text "completed"),
        (⟨false, "j1", "input.csv"⟩, FileData.text "x")]
      ⟨true, "j1", "report.json"⟩).isSome = true
    ∧ (fsRead [(⟨true, "j1", "report.json"⟩, FileData.jsonReport (.analysis ([], [], []))),
        (⟨true, "j1", "status.txt"⟩, FileData.text "completed"),
        (⟨false, "j1", "input.csv"⟩, FileData.text "x")]
      ⟨true, "j1", "status.txt"⟩).isSome = true
    ∧ fsRead (worker_sweep (fun _ => false) (fun _ => none)
        [(⟨true, "j1", "report.json"⟩, FileData.jsonReport (.analysis ([], [], []))),
          (⟨true, "j1", "status.txt"⟩, FileData.text "completed"),
          (⟨false, "j1", "input.csv"⟩, FileData.text "x")]
        ["j1"]) ⟨true, "j1", "status.txt"⟩
      = fsRead [(⟨true, "j1", "report.json"⟩, FileData.jsonReport (.analysis ([], [], []))),
          (⟨true, "j1", "status.txt"⟩, FileData.text "completed"),
          (⟨false, "j1", "input.csv"⟩, FileData.text "x")]
        ⟨true, "j1", "status.txt"⟩ :=
  ⟨by decide, by decide,
    worker_sweep_idempotent (fun _ => false) (fun _ => none)
      [(⟨true, "j1", "report.json"⟩, FileData.jsonReport (.analysis ([], [], []))),
        (⟨true, "j1", "status.txt"⟩, FileData.text "completed"),
        (⟨false, "j1", "input.csv"⟩, FileData.text "x")]
      ["j1"] "j1" (by decide) (by decide) "status.txt"⟩

/-- Claim C4 (code bug): a job whose input content no pandas reader can
parse is NOT marked failed and its error artifact IS retained: read_file
catches the reader's exception and returns False, process_csv_file then
returns the error dict with success = True (its except-branch never
fires), and the worker writes report.json = the error dict and
status.txt = "completed". -/
theorem worker_marks_unreadable_completed (parses : Cell → Bool)
    (parseTab : String → Option DataFrame) (fs : FS)
    (j fname content : String)
    (hnr : fsRead fs ⟨true, j, "report.json"⟩ = none)
    (hin : jobInputFile fs j = some (fname, content))
    (hbad : parseTab content = none) :
    fsRead (processJob parses parseTab fs j) ⟨true, j, "status.txt"⟩
      = some (.text "completed")
    ∧ fsRead (processJob parses parseTab fs j) ⟨true, j, "report.json"⟩
      = some (.jsonReport (.readError j)) := by
  have hread : read_file parseTab fname content = none := by
    unfold read_file
    split
    · exact hbad
    · rfl
  have hrep : process_csv_file parses parseTab j fname content
      = (.readError j, true) := by
    unfold process_csv_file process_file_for_worker
    rw [hread]
  have hskip : ((fsRead fs ⟨true, j, "report.json"⟩).isSome
      && (fsRead fs ⟨true, j, "status.txt"⟩).isSome) = false := by
    rw [hnr]
    rfl
  have hne : (⟨true, j, "report.json"⟩ : FPath) ≠ ⟨true, j, "status.txt"⟩ := by
    intro he
    have : ("report.json" : String) = "status.txt" := congrArg FPath.file he
    exact absurd this (by decide)
  have hpj : processJob parses parseTab fs j
      = fsWrite (fsWrite (fsWrite fs ⟨true, j, "status.txt"⟩ (.text "processing"))
          ⟨true, j, "report.json"⟩ (.jsonReport (.readError j)))
          ⟨true, j, "status.txt"⟩ (.text "completed") := by
    unfold processJob
    rw [if_neg (by rw [hskip]; simp), hin]
    simp only [hrep]
    simp
  constructor
  · rw [hpj, fsRead_fsWrite, if_pos rfl]
  · rw [hpj, fsRead_fsWrite, if_neg hne, fsRead_fsWrite, if_pos rfl]

/-- Claim C4 witness: the code-bug theorem evaluated on a concrete job
whose only upload is an unreadable input.csv. -/
theorem worker_marks_unreadable_completed_witness :
    fsRead [((⟨false, "j1", "input.csv"⟩ : FPath), FileData.text "garbage")]
      ⟨true, "j1", "report.json"⟩ = none
    ∧ jobInputFile [((⟨false, "j1", "input.csv"⟩ : FPath), FileData.text "garbage")]
      "j1" = some ("input.csv", "garbage")
    ∧ (fun _ : String => (none : Option DataFrame)) "garbage" = none
    ∧ fsRead (processJob (fun _ => false) (fun _ => none)
        [((⟨false, "j1", "input.csv"⟩ : FPath), FileData.text "garbage")] "j1")
        ⟨true, "j1", "status.txt"⟩ = some (.text "completed")
    ∧ fsRead (processJob (fun _ => false) (fun _ => none)
        [((⟨false, "j1", "input.csv"⟩ : FPath), FileData.text "garbage")] "j1")
        ⟨true, "j1", "report.json"⟩ = some (.jsonReport (.readError "j1")) :=
  have happ := worker_marks_unreadable_completed (fun _ => false) (fun _ => none)
    [((⟨false, "j1", "input.csv"⟩ : FPath), FileData.text "garbage")]
    "j1" "input.csv" "garbage" (by decide) (by decide) rfl
  ⟨by decide, by decide, rfl, happ.1, happ.2⟩

/-!  ### Serialisation: support.py generate, lines 151-161

Python's json.dump consults its `default` hook ONLY for objects it cannot
natively encode.  A float IS natively encodable: with the default
allow_nan=True, json.dump emits the non-finite floats as the bare tokens
NaN / Infinity / -Infinity and never hands a float to the hook. -/

/-- A Python float: finite, or one of the three non-finite values. -/
inductive PFloat where
  | finite (q : ℚ)
  | nan
  | inf
  | ninf
deriving DecidableEq

/-- A Python value reaching json.dump: the natively serialisable kinds,
plus non-native objects; pandasLike marks a pd.Series / pd.DataFrame. -/
inductive PyVal where
  | pnull
  | pbool (b : Bool)
  | pint (n : ℤ)
  | pfloat (x : PFloat)
  | pstr (s : String)
  | plist (xs : List PyVal)
  | pdict (kvs : List (String × PyVal))
  | pobj (pandasLike : Bool) (rep : String)

/-- How json.dump writes a float: repr for finite values, the
non-standard bare literal tokens for the non-finite ones. -/
def jsonFloat : PFloat → String
  | .finite q => toString q
  | .nan => "NaN"
  | .inf => "Infinity"
  | .ninf => "-Infinity"

/-- Python str() of a float ("nan", "inf", "-inf"). -/
def pyFloatStr : PFloat → String
  | .finite q => toString q
  | .nan => "nan"
  | .inf => "inf"
  | .ninf => "-inf"

/-- A JSON string literal (escaping elided: no value at issue needs it). -/
def jsonQuote (s : String) : String := "\"" ++ s ++ "\""

/-- Whether an emitted token is a JSON string literal (starts with a
quote). -/
def isJsonStringLit (s : String) : Bool :=
  match s.data with
  | c :: _ => c == '\"'
  | [] => false

/-- support.py default_serializer (lines 152-155): isinstance of float,
pd.Series or pd.DataFrame → str(obj); anything else raises TypeError
(none).  The float branch is dead code — json.dump never hands a float to
the hook. -/
def default_serializer : PyVal → Option PyVal
  | .pfloat x => some (.pstr (pyFloatStr x))
  | .pobj true r => some (.pstr r)
  | _ => none

mutual

/-- json.dump with a default hook: native values are emitted directly —
floats via jsonFloat, so the non-finite ones become bare tokens without
consulting the hook — and only a pobj is passed to the hook, whose
replacement value (always a string for the hooks of this program) is then
emitted; none models TypeError. -/
def dumps (default : PyVal → Option PyVal) : PyVal → Option String
  | .pnull => some "null"
  | .pbool b => some (if b then "true" else "false")
  | .pint n => some (toString n)
  | .pfloat x => some (jsonFloat x)
  | .pstr s => some (jsonQuote s)
  | .plist xs =>
    match dumpsList default xs with
    | some parts => some ("[" ++ String.intercalate ", " parts ++ "]")
    | none => none
  | .pdict kvs =>
    match dumpsDict default kvs with
    | some parts => some ("\x7b" ++ String.intercalate ", " parts ++ "\x7d")
    | none => none
  | .pobj b r =>
    match default (.pobj b r) with
    | some (.pstr s) => some (jsonQuote s)
    | some _ => none
    | none => none

def dumpsList (default : PyVal → Option PyVal) :
    List PyVal → Option (List String)
  | [] => some []
  | v :: t =>
    match dumps default v, dumpsList default t with
    | some s, some ts => some (s :: ts)
    | _, _ => none

def dumpsDict (default : PyVal → Option PyVal) :
    List (String × PyVal) → Option (List String)
  | [] => some []
  | (k, v) :: t =>
    match dumps default v, dumpsDict default t with
    | some s, some ts => some ((jsonQuote k ++ ": " ++ s) :: ts)
    | _, _ => none

end

mutual

/-- Values on which the hook cannot raise: no raw non-pandas object
anywhere.  The analysis output the program serialises is dicts/lists of
strings and numbers. -/
def serializableVal : PyVal → Bool
  | .plist xs => serializableList xs
  | .pdict kvs => serializableDict kvs
  | .pobj pandasLike _ => pandasLike
  | _ => true

def serializableList : List PyVal → Bool
  | [] => true
  | v :: t => serializableVal v && serializableList t

def serializableDict : List (String × PyVal) → Bool
  | [] => true
  | (_, v) :: t => serializableVal v && serializableDict t

end

mutual

theorem dumps_total_val (v : PyVal) (h : serializableVal v = true) :
    (dumps default_serializer v).isSome = true := by
  match v with
  | .pnull => rfl
  | .pbool b => rfl
  | .pint n => rfl
  | .pfloat x => rfl
  | .pstr s => rfl
  | .plist xs =>
    have hl := dumps_total_list xs (by simpa [serializableVal] using h)
    rw [dumps]
    cases hdl : dumpsList default_serializer xs with
    | none => rw [hdl] at hl; exact absurd hl (by simp)
    | some parts => simp
  | .pdict kvs =>
    have hl := dumps_total_dict kvs (by simpa [serializableVal] using h)
    rw [dumps]
    cases hdl : dumpsDict default_serializer kvs with
    | none => rw [hdl] at hl; exact absurd hl (by simp)
    | some parts => simp
  | .pobj b r =>
    have hb : b = true := by simpa [serializableVal] using h
    subst hb
    rfl

theorem dumps_total_list (xs : List PyVal) (h : serializableList xs = true) :
    (dumpsList default_serializer xs).isSome = true := by
  match xs with
  | [] => rfl
  | v :: t =>
    rw [serializableList, Bool.and_eq_true] at h
    have h1 := dumps_total_val v h.1
    have h2 := dumps_total_list t h.2
    rw [dumpsList]
    cases hd1 : dumps default_serializer v with
    | none => rw [hd1] at h1; exact absurd h1 (by simp)
    | some s =>
      cases hd2 : dumpsList default_serializer t with
      | none => rw [hd2] at h2; exact absurd h2 (by simp)
      | some ts => simp

theorem dumps_total_dict (kvs : List (String × PyVal))
    (h : serializableDict kvs = true) :
    (dumpsDict default_serializer kvs).isSome = true := by
  match kvs with
  | [] => rfl
  | (k, v) :: t =>
    rw [serializableDict, Bool.and_eq_true] at h
    have h1 := dumps_total_val v h.1
    have h2 := dumps_total_dict t h.2
    rw [dumpsDict]
    cases hd1 : dumps default_serializer v with
    | none => rw [hd1] at h1; exact absurd h1 (by simp)
    | some s =>
      cases hd2 : dumpsDict default_serializer t with
      | none => rw [hd2] at h2; exact absurd h2 (by simp)
      | some ts => simp

end

/-- Claim C8 (counterexample): serialising float('nan') through
support.py's json.dump call emits the bare token NaN — a (non-standard)
number literal, not a string: the default hook, whose float branch would
return the string "nan", is never consulted for a float. -/
theorem dumps_nan_not_string_cex :
    dumps default_serializer (.pfloat .nan) = some "NaN"
    ∧ isJsonStringLit "NaN" = false
    ∧ some "NaN" ≠ some (jsonQuote (pyFloatStr PFloat.nan)) := by
  refine ⟨rfl, by decide, ?_⟩
  intro h
  have h2 : "NaN" = jsonQuote (pyFloatStr PFloat.nan) := Option.some.inj h
  exact absurd h2 (by decide)

/-- Claim C8 (amended): serialisation never raises on non-finite numbers —
json.dump succeeds on every value the program serialises (no raw
non-pandas objects) — but it does not convert them to strings: NaN and
Infinity are emitted as bare number-literal tokens, the default hook
being consulted only for non-native objects such as pd.Series, which it
does stringify. -/
theorem dumps_nonfinite_amended (v : PyVal) (h : serializableVal v = true) :
    (dumps default_serializer v).isSome = true
    ∧ dumps default_serializer (.pfloat .nan) = some "NaN"
    ∧ dumps default_serializer (.pfloat .inf) = some "Infinity"
    ∧ dumps default_serializer (.pfloat .ninf) = some "-Infinity"
    ∧ isJsonStringLit "NaN" = false
    ∧ isJsonStringLit "Infinity" = false
    ∧ isJsonStringLit "-Infinity" = false :=
  ⟨dumps_total_val v h, rfl, rfl, rfl, by decide, by decide, by decide⟩

/-- Claim C8 witness: the amended theorem applied to a nested value
containing a NaN, an Infinity and a pandas object. -/
theorem dumps_nonfinite_amended_witness :
    serializableVal (.pdict [("mean", .pfloat .nan),
      ("scores", .plist [.pfloat .inf, .pint 3]),
      ("series", .pobj true "0 1")]) = true
    ∧ (dumps default_serializer (.pdict [("mean", .pfloat .nan),
        ("scores", .plist [.pfloat .inf, .pint 3]),
        ("series", .pobj true "0 1")])).isSome = true :=
  ⟨by decide,
    (dumps_nonfinite_amended (.pdict [("mean", .pfloat .nan),
      ("scores", .plist [.pfloat .inf, .pint 3]),
      ("series", .pobj true "0 1")]) (by decide)).1⟩

end Aiml
